import Mathlib

/-!
# Verification of the rollup-jinja compiler front-end

A shallow embedding, in Lean 4, of the rollup-jinja template compiler
(`src/lib/parse.js`, `src/lib/codegen.js`, `src/lib/estree.js`,
`src/lib/index.js`), together with theorems settling the specification
claims about it.

Conventions of the embedding:
* JavaScript strings are represented as `List Char` (all inputs considered
  are ASCII, where JS UTF-16 code-unit indexing and `List Char` indexing
  agree); the current character `this.chr`, which in JS is `''` at end of
  input, is `Option Char`.
* JS `undefined` values that can flow into data are represented with
  `Option`; a JS crash from touching `undefined` (TypeError) and other
  plain `Error`s are `JErr.plain`; structured `SyntaxError`s are
  `JErr.syntaxErr`.
* JS numbers are represented exactly as rationals (`ℚ`); number lexemes
  have the shape `digits[.digits]`, on which `Number(..)` is exact.
* Mutable objects are replaced by explicit state threading; unbounded
  driver loops take a fuel parameter, while loops that consume source
  characters recurse on the number of remaining characters.
-/

set_option maxHeartbeats 4000000
set_option maxRecDepth 10000

namespace RollupJinja

/-- A source location, as produced by `Source.location`:
`{offset, line, column}`. -/
structure Loc where
  offset : Nat
  line : Nat
  column : Nat
deriving Repr, DecidableEq

/-- The lexer state: `Source` from `src/lib/parse.js` (fields `code`,
`offset`, `line`, `column`). -/
structure Src where
  code : List Char
  offset : Nat
  line : Nat
  column : Nat
deriving Repr, DecidableEq

/-- `new Source(code)`. -/
def Src.init (code : List Char) : Src := ⟨code, 0, 1, 0⟩

/-- `Source.eos`: true if the stream is exhausted (`offset >= code.length`). -/
def Src.eos (s : Src) : Bool := s.code.length ≤ s.offset

/-- `Source.chr`: the current character; `none` models the JS empty string
returned past the end of input. -/
def Src.chr (s : Src) : Option Char := s.code.get? s.offset

/-- `Source.location`. -/
def Src.location (s : Src) : Loc := ⟨s.offset, s.line, s.column⟩

/-- `Source.nextchr`: advance by one character; the newline test happens
after advancing, so `line` bumps and `column` resets when the cursor lands
on a `\n`. -/
def Src.nextchr (s : Src) : Src :=
  let s' : Src := { s with offset := s.offset + 1, column := s.column + 1 }
  if s'.chr = some '\n' then { s' with line := s'.line + 1, column := 0 } else s'

/-- `Source.substr(start, end)`: `code.substr(start.offset, end.offset - start.offset)`. -/
def Src.substr (s : Src) (a b : Loc) : List Char :=
  (s.code.drop a.offset).take (b.offset - a.offset)

/-- The JS `\s` class, restricted to its ASCII members (the sources
considered contain no Unicode spaces). -/
def jsIsSpace (c : Char) : Bool :=
  c = ' ' || c = '\t' || c = '\n' || c = '\r' || c = '\x0b' || c = '\x0c'

/-- The JS `\w` class: `[A-Za-z0-9_]`. -/
def jsIsWord (c : Char) : Bool :=
  ('A' ≤ c && c ≤ 'Z') || ('a' ≤ c && c ≤ 'z') || c.isDigit || c = '_'

/-- The symbol character class of `Source.next`:
`[-<>,./{}[\]!#%*()+=,|]`. -/
def jsIsSymChar (c : Char) : Bool :=
  c = '-' || c = '<' || c = '>' || c = ',' || c = '.' || c = '/' ||
  c = '\x7b' || c = '\x7d' || c = '[' || c = ']' || c = '!' || c = '#' ||
  c = '%' || c = '*' || c = '(' || c = ')' || c = '+' || c = '=' || c = '|'

theorem Src.nextchr_offset (s : Src) : (Src.nextchr s).offset = s.offset + 1 := by
  unfold Src.nextchr
  dsimp only
  split <;> rfl

theorem Src.nextchr_code (s : Src) : (Src.nextchr s).code = s.code := by
  unfold Src.nextchr
  dsimp only
  split <;> rfl

theorem Src.chr_some_lt (s : Src) (c : Char) (h : s.chr = some c) :
    s.offset < s.code.length := by
  by_contra hge
  have : s.code.get? s.offset = none := List.get?_eq_none.mpr (Nat.le_of_not_lt hge)
  rw [Src.chr] at h
  rw [this] at h
  exact Option.noConfusion h

/-- The whitespace-skipping loop at the top of `Source.next`, bounded by a
gas argument.  Each iteration consumes one character while the cursor is in
range, so the remaining-input gas supplied by `Src.skipWs` never runs out
before the loop condition fails (out of range `chr` is `none`). -/
def skipWsGo : Nat → Src → Src
  | 0, s => s
  | g + 1, s =>
    match s.chr with
    | some c => if jsIsSpace c then skipWsGo g s.nextchr else s
    | none => s

/-- `while (this.chr.match(/\s/)) this.nextchr()`. -/
def Src.skipWs (s : Src) : Src := skipWsGo (s.code.length - s.offset) s

/-- A maximal run consumer (the digit and word loops of `Source.next`),
bounded by gas exactly as `skipWsGo`. -/
def consumeWhileGo (p : Char → Bool) : Nat → Src → Src
  | 0, s => s
  | g + 1, s =>
    match s.chr with
    | some c => if p c then consumeWhileGo p g s.nextchr else s
    | none => s

/-- Repeated `nextchr` while the predicate holds on the current char. -/
def Src.consumeWhile (p : Char → Bool) (s : Src) : Src :=
  consumeWhileGo p (s.code.length - s.offset) s

/-- The string-literal loop of `Source.next`:
`while (!eos && chr !== terminator) { if (chr === '\\') nextchr(); nextchr() }`,
bounded by gas (each iteration consumes at least one in-range character).
The trailing `nextchr()` that skips the terminator is at the call site. -/
def consumeStrGo (term : Char) : Nat → Src → Src
  | 0, s => s
  | g + 1, s =>
    if s.eos then s
    else if s.chr = some term then s
    else consumeStrGo term g (if s.chr = some '\\' then s.nextchr.nextchr else s.nextchr)

/-- Consume a string literal body up to (not including) its terminator. -/
def Src.consumeStr (term : Char) (s : Src) : Src :=
  consumeStrGo term (s.code.length - s.offset) s

/-- JS strict equality `a === b` where `a` is `this.chr` (a character or
the empty string) and `b` is a character or `undefined`: `'' === undefined`
and `c === undefined` are both false. -/
def jsCharEq (a b : Option Char) : Bool :=
  match a, b with
  | some x, some y => x = y
  | _, _ => false

/-- The `SYMBOLS` table of `src/lib/parse.js`: lexeme and shared-prefix
depth flag, in source order. -/
def SYMBOLS : List (String × Nat) :=
  [("!", 0), ("!=", 1), ("%", 0), ("%\x7d", 1), ("(", 0), (")", 0), ("*", 0), ("**", 1),
   ("+", 0), (",", 0), ("-", 0), (".", 0), ("/", 0), ("<", 0), ("<=", 1), ("=", 0),
   ("==", 1), (">", 0), (">=", 1), ("\x7b", 0), ("\x7b%", 1), ("\x7b\x7b", 1),
   ("|", 0), ("\x7d", 0), ("\x7d\x7d", 1)]

/-- The multi-character symbol resolver loop of `Source.next`:
`for (i ...; i < SYMBOLS.length && depth <= SYMBOLS[i+1]; i += 2)`,
matching `this.chr` against `SYMBOLS[i][depth]` and recording the longest
completed symbol. -/
def Src.symScan : List (String × Nat) → Nat → Option String → Src → Option String × Src
  | [], _, sym, s => (sym, s)
  | (e, flag) :: rest, depth, sym, s =>
    if depth ≤ flag then
      if depth ≠ flag then Src.symScan rest depth sym s
      else if jsCharEq s.chr (e.data.get? depth) then
        let depth' := depth + 1
        let sym' := if depth' = e.length then some e else sym
        Src.symScan rest depth' sym' s.nextchr
      else
        let sym' := if depth = e.length then some e else sym
        Src.symScan rest depth sym' s
    else (sym, s)

/-- Token payloads: `Number | Identifier | String | Symbol | Character |
EndOfStream`.  A `String` token carries no value (the lexer never decodes
contents); a `Character` token's value is the current `chr` (as a string,
matching the JS field). -/
inductive EvKind where
  | number (value : ℚ)
  | ident (value : String)
  | str
  | symbol (value : String)
  | chr (value : String)
  | eos
deriving Repr, DecidableEq

/-- A token: kind plus `start`/`end` locations (`stop` embeds the JS field
`end`). -/
structure Event where
  kind : EvKind
  start : Loc
  stop : Loc
deriving Repr, DecidableEq

/-- Accumulate a digit run as a natural number. -/
def digitsVal (l : List Char) : Nat :=
  l.foldl (fun a c => a * 10 + (c.toNat - '0'.toNat)) 0

/-- `Number(lexeme)` for lexemes of the shape `digits[.digits]` produced by
the number branch of `Source.next`, represented exactly as a rational. -/
def numValue (l : List Char) : ℚ :=
  let intPart := l.takeWhile Char.isDigit
  let rest := l.drop intPart.length
  let frac := (rest.drop 1).takeWhile Char.isDigit
  (digitsVal intPart : ℚ) + (digitsVal frac : ℚ) / (10 : ℚ) ^ frac.length

/-- `Source.next(strings)`.  Notes on fidelity:
* In the source the `EndOfStream` branch is `if` and the digit branch that
  follows is a second `if` (not `else if`); at end of stream `chr` is empty
  and matches none of the later branches, so the `EndOfStream` result
  always survives, which the `if/else` below reproduces.
* When the symbol resolver finds no symbol it has consumed nothing, and
  control falls through to the `Character` fallback, which reads the
  (then current) `chr` and advances once. -/
def Src.next (strings : Bool) (s0 : Src) : Event × Src :=
  let s := s0.skipWs
  let start := s.location
  if s.eos then
    (⟨.eos, start, s.location⟩, s)
  else match s.chr with
  | none => (⟨.eos, start, s.location⟩, s)
  | some c =>
    if c.isDigit then
      let s1 := s.consumeWhile Char.isDigit
      let s2 := if s1.chr = some '.' then s1.nextchr.consumeWhile Char.isDigit else s1
      (⟨.number (numValue (s.substr start s2.location)), start, s2.location⟩, s2)
    else if jsIsWord c then
      let s1 := s.consumeWhile jsIsWord
      (⟨.ident (String.mk (s.substr start s1.location)), start, s1.location⟩, s1)
    else if strings && (c = '"' || c = '\'') then
      let s1 := (s.nextchr.consumeStr c).nextchr
      (⟨.str, start, s1.location⟩, s1)
    else if jsIsSymChar c then
      match Src.symScan SYMBOLS 0 none s with
      | (some sym, s') => (⟨.symbol sym, start, s'.location⟩, s')
      | (none, s') =>
        let v := match s'.chr with | some ch => String.mk [ch] | none => ""
        (⟨.chr v, start, s'.nextchr.location⟩, s'.nextchr)
    else
      (⟨.chr (String.mk [c]), start, s.nextchr.location⟩, s.nextchr)

/-- The number of newline characters among positions `1..k` of `code` —
the positions the cursor can land on after `k` single-character advances. -/
def nlUpTo (code : List Char) (k : Nat) : Nat :=
  (List.range k).countP (fun i => decide (code.get? (i + 1) = some '\n'))

theorem nextchr_iter_spec (code : List Char) (k : Nat) :
    ((Src.nextchr)^[k] (Src.init code)).code = code ∧
    ((Src.nextchr)^[k] (Src.init code)).offset = k ∧
    ((Src.nextchr)^[k] (Src.init code)).line = 1 + nlUpTo code k ∧
    (((Src.nextchr)^[k] (Src.init code)).column = 0 ↔
      (k = 0 ∨ code.get? k = some '\n')) := by
  induction k with
  | zero =>
    refine ⟨rfl, rfl, ?_, ?_⟩
    · simp [nlUpTo, Src.init]
    · simp [Src.init]
  | succ k ih =>
    obtain ⟨hcode, hoff, hline, hcol⟩ := ih
    rw [Function.iterate_succ_apply']
    set st := (Src.nextchr)^[k] (Src.init code) with hst
    have hrange : nlUpTo code (k + 1) =
        nlUpTo code k + (if code.get? (k + 1) = some '\n' then 1 else 0) := by
      unfold nlUpTo
      rw [List.range_succ, List.countP_append, List.countP_cons, List.countP_nil]
      by_cases h : code.get? (k + 1) = some '\n' <;> simp [h]
    unfold Src.nextchr
    dsimp only
    have hchr : ({ st with offset := st.offset + 1, column := st.column + 1 } : Src).chr
        = code.get? (k + 1) := by
      simp [Src.chr, hcode, hoff]
    by_cases hnl : code.get? (k + 1) = some '\n'
    · rw [if_pos (by rw [hchr]; exact hnl)]
      refine ⟨hcode, by simpa using hoff, ?_, ?_⟩
      · simp only [hline, hrange, if_pos hnl]
        omega
      · simp only [true_iff, iff_true]
        right
        exact hnl
    · rw [if_neg (by rw [hchr]; exact hnl)]
      refine ⟨hcode, by simpa using hoff, ?_, ?_⟩
      · simp only [hline, hrange, if_neg hnl]
        omega
      · constructor
        · intro hz
          exact absurd hz (Nat.succ_ne_zero _)
        · intro hor
          rcases hor with hz | hn
          · exact absurd hz (Nat.succ_ne_zero _)
          · exact absurd hn hnl

/-- C5, counterexample.  In `"a\nb"` the first character following the
newline is the `b` at offset 2, yet after advancing the cursor onto it the
column is 1, not 0 (the column is 0 at the `\n` itself).  Moreover in
`"\na"` the line counter never increments for the newline at offset 0
(the cursor starts there and is never advanced onto it), so after scanning
the whole input the line is still 1 despite one `\n` in the source. -/
theorem c5_counterexample :
    ((Src.nextchr)^[2] (Src.init "a\nb".data)).column = 1 ∧
    "a\nb".data.get? 1 = some '\n' ∧
    "a\nb".data.get? 2 = some 'b' ∧
    ((Src.nextchr)^[2] (Src.init "\na".data)).line = 1 ∧
    "\na".data.get? 0 = some '\n' := by
  refine ⟨by decide, by decide, by decide, by decide, by decide⟩

/-- C5, amended: as the lexer advances character by character (`nextchr`),
the line counter increments exactly once for every `\n` the cursor is
advanced onto — i.e. once per `\n` at a positive offset, a `\n` at offset 0
never being counted — and the column is 0 exactly at the start of the
input and at every `\n` the cursor lands on; the first character after a
`\n` therefore has column 1, not 0. -/
theorem c5_amended (code : List Char) (k : Nat) :
    ((Src.nextchr)^[k] (Src.init code)).line = 1 + nlUpTo code k ∧
    (((Src.nextchr)^[k] (Src.init code)).column = 0 ↔
      (k = 0 ∨ code.get? k = some '\n')) :=
  ⟨(nextchr_iter_spec code k).2.2.1, (nextchr_iter_spec code k).2.2.2⟩

/-- Round-trip check for one symbol-table entry: lexing the lexeme alone
yields a single Symbol token with that value and span `[0, |s|)`, and
consumes the whole input. -/
def symLexChk (e : String × Nat) : Bool :=
  let s := e.1
  let (ev, s') := Src.next false (Src.init s.data)
  decide (ev = ⟨.symbol s, ⟨0, 1, 0⟩, ⟨s.length, 1, s.length⟩⟩) && s'.eos

/-- C6, counterexample.  `[` is not in the `SYMBOLS` table: lexing `"["`
alone yields a `Character` token (value `"["`, span `[0,1)`), not a
`Symbol` token as the claim states; likewise `]`. -/
theorem c6_counterexample :
    Src.next false (Src.init "[".data) =
      (⟨.chr "[", ⟨0, 1, 0⟩, ⟨1, 1, 1⟩⟩, ⟨"[".data, 1, 1, 1⟩) ∧
    Src.next false (Src.init "]".data) =
      (⟨.chr "]", ⟨0, 1, 0⟩, ⟨1, 1, 1⟩⟩, ⟨"]".data, 1, 1, 1⟩) := by
  exact ⟨by decide, by decide⟩

/-- C6, amended: for every lexeme `s` of the 25-entry `SYMBOLS` table
(`! != % %} ( ) * ** + , - . / < <= = == > >= { {% {{ | } }}`), lexing the
string `s` alone yields a single Symbol token whose value is `s` and whose
span is `[0, |s|)`, with the longest match winning among symbols sharing a
prefix; `[` and `]` are not symbol lexemes — each lexes as a single
`Character` token instead. -/
theorem c6_amended :
    SYMBOLS.all symLexChk = true ∧
    (Src.next false (Src.init "[".data)).1.kind = .chr "[" ∧
    (Src.next false (Src.init "]".data)).1.kind = .chr "]" := by
  exact ⟨by decide, by decide, by decide⟩

theorem Src.chr_none_of_eos (s : Src) (h : s.code.length ≤ s.offset) :
    s.chr = none :=
  List.get?_eq_none.mpr h

theorem Src.skipWs_at_eos (s : Src) (h : s.code.length ≤ s.offset) :
    s.skipWs = s := by
  unfold Src.skipWs
  rw [Nat.sub_eq_zero_of_le h]
  rfl

/-- C9: with the cursor at end of stream (`offset ≥ code.length`), `next`
returns an `EndOfStream` token whose `start` and `end` both equal the
current location, and leaves the source state — offset, line and column —
unchanged; consequently successive calls all return equal tokens, and the
value never falls through to another scan branch (at end of stream `chr`
is empty and matches no scan class). -/
theorem c9_next_at_eos (s : Src) (strings : Bool) (h : s.code.length ≤ s.offset) :
    Src.next strings s = (⟨.eos, s.location, s.location⟩, s) := by
  have hskip := Src.skipWs_at_eos s h
  have heos : s.eos = true := by simp [Src.eos, h]
  unfold Src.next
  rw [hskip, if_pos heos]

/-- Witness for C9 at a concrete out-of-range state. -/
theorem c9_next_at_eos_witness :
    Src.next false ⟨"ab".data, 5, 1, 7⟩ =
      (⟨.eos, ⟨5, 1, 7⟩, ⟨5, 1, 7⟩⟩, ⟨"ab".data, 5, 1, 7⟩) :=
  c9_next_at_eos ⟨"ab".data, 5, 1, 7⟩ false (by decide)

/-! ## Errors (`SyntaxError` of `src/lib/parse.js`) -/

/-- The payload of the structured `SyntaxError`: `name`, formatted
`message`, and a `location` with `start` and (possibly absent) `end`. -/
structure JSyntaxError where
  name : String
  message : String
  locStart : Loc
  locEnd : Option Loc
deriving Repr, DecidableEq

/-- An abnormal outcome: either a structured `SyntaxError`, or a plain JS
`Error`/`TypeError` (e.g. `Yard.back`'s stack underflow, or touching a
property of `undefined`). -/
inductive JErr where
  | syntaxErr (e : JSyntaxError)
  | plain (msg : String)
deriving Repr, DecidableEq

/-- The `SyntaxError` constructor: copies `location.start`/`location.end`
from its argument and prefixes the message with
`(<start.line>:<start.column>) `. -/
def mkSyntaxError (start : Loc) (stop : Option Loc) (msg : String) : JSyntaxError :=
  { name := "SyntaxError",
    message := "(" ++ toString start.line ++ ":" ++ toString start.column ++ ") " ++ msg,
    locStart := start,
    locEnd := stop }

/-- The `location` argument handed to the `SyntaxError` constructor: its
`start`/`end` fields, either of which may be absent (`undefined`). -/
structure ErrLoc where
  start : Option Loc
  stop : Option Loc
deriving Repr, DecidableEq

/-- Throw a `SyntaxError` built from a location-bearing value.  When the
argument has no `start` the constructor would read `.line` of `undefined`
and crash with a `TypeError`, which is modelled as a plain error. -/
def throwSyntax (l : ErrLoc) (msg : String) : Except JErr α :=
  match l.start with
  | some st => .error (.syntaxErr (mkSyntaxError st l.stop msg))
  | none => .error (.plain "TypeError")

/-- A token's `{start, end}`, as passed to `SyntaxError`. -/
def Event.errLoc (ev : Event) : ErrLoc := ⟨some ev.start, some ev.stop⟩

/-- The JS `type` string of a token, as interpolated into error messages. -/
def evTypeName : EvKind → String
  | .number _ => "Number"
  | .ident _ => "Identifier"
  | .str => "String"
  | .symbol _ => "Symbol"
  | .chr _ => "Character"
  | .eos => "EndOfStream"

/-! ## Expression AST and the shunting yard (`Yard`) -/

/-- An operator token as stored in `BinOp.op`:
`{type: 'Operator', value, start, end}`. -/
structure OpTok where
  value : String
  start : Loc
  stop : Loc
deriving Repr, DecidableEq

/-- The expression AST built by the yard.  Span fields are `Option Loc`
because a `FunctionCall`'s `end` comes from the yard's `_end` register
(which starts out `undefined`), and `ArgListGuard` — the output-stack
sentinel — has no spans at all.  The output stack holds `Number`/`String`
tokens directly, represented by `numberE`/`stringE`. -/
inductive Expr where
  | variable (name : String) (start stop : Option Loc)
  | numberE (value : ℚ) (start stop : Option Loc)
  | stringE (start stop : Option Loc)
  | boolean (value : Bool) (start stop : Option Loc)
  | binOp (op : OpTok) (left right : Expr) (start stop : Option Loc)
  | member (object property : Expr) (start stop : Option Loc)
  | filterE (value fExpr : Expr) (start stop : Option Loc)
  | functionCall (fn : Expr) (args : List Expr) (start stop : Option Loc)
  | unpack (names : List Expr) (start stop : Option Loc)
  | argListGuard
deriving Repr

/-- `node.start`. -/
def Expr.startO : Expr → Option Loc
  | .variable _ s _ => s
  | .numberE _ s _ => s
  | .stringE s _ => s
  | .boolean _ s _ => s
  | .binOp _ _ _ s _ => s
  | .member _ _ s _ => s
  | .filterE _ _ s _ => s
  | .functionCall _ _ s _ => s
  | .unpack _ s _ => s
  | .argListGuard => none

/-- `node.end`. -/
def Expr.stopO : Expr → Option Loc
  | .variable _ _ e => e
  | .numberE _ _ e => e
  | .stringE _ e => e
  | .boolean _ _ e => e
  | .binOp _ _ _ _ e => e
  | .member _ _ _ e => e
  | .filterE _ _ _ e => e
  | .functionCall _ _ _ e => e
  | .unpack _ _ e => e
  | .argListGuard => none

/-- An expression node's `{start, end}` as a `SyntaxError` location. -/
def Expr.errLoc (e : Expr) : ErrLoc := ⟨e.startO, e.stopO⟩

/-- Operator associativity. -/
inductive Assoc where
  | left
  | right
deriving Repr, DecidableEq

/-- The `OPERATORS` table (string-keyed part). -/
def opTable : String → Option (Nat × Assoc)
  | "!=" => some (200, .left)
  | "%" => some (400, .left)
  | "*" => some (400, .left)
  | "**" => some (500, .right)
  | "+" => some (300, .left)
  | "-" => some (300, .left)
  | "." => some (600, .left)
  | "/" => some (400, .left)
  | "<" => some (200, .left)
  | "<=" => some (200, .left)
  | "=" => some (100, .left)
  | "==" => some (200, .left)
  | ">" => some (200, .left)
  | ">=" => some (200, .left)
  | "(" => some (0, .left)
  | "|" => some (50, .left)
  | _ => none

/-- An element of the yard's operator stack: a `Symbol` token, or the
synthetic `{type: 'Call', value: CallOp}` operator (which carries no
spans). -/
inductive YOp where
  | sym (value : String) (start stop : Loc)
  | callOp
deriving Repr, DecidableEq

/-- `top.value === terminator` for an operator-stack element (`CallOp`'s
value is a JS `Symbol`, never equal to a string). -/
def yopValueIs (t : YOp) (term : String) : Bool :=
  match t with
  | .sym v _ _ => v = term
  | .callOp => false

/-- `top.type === 'Symbol' && top.value === '('`. -/
def yopIsLParen (t : YOp) : Bool :=
  match t with
  | .sym v _ _ => v = "("
  | .callOp => false

/-- The yard state: operator stack (`stack`, which can contain `undefined`
— see the `,` handler), output stack (`out`, stored top-first, i.e. the
reverse of the JS array), `_state` and `_end`. -/
structure YardSt where
  stack : List (Option YOp) := []
  out : List Expr := []
  state : Option String := none
  endL : Option Loc := none
deriving Repr

/-- `Yard.operator(op)`: look the operator up in `OPERATORS`; an `undefined`
stack element crashes on the `.value` access. -/
def yOperatorInfo : Option YOp → Except JErr (Nat × Assoc)
  | none => .error (.plain "TypeError")
  | some .callOp => .ok (550, .left)
  | some (.sym v s e) =>
    match opTable v with
    | some i => .ok i
    | none => throwSyntax ⟨some s, some e⟩ (v ++ " is not an operator")

/-- `Yard.back()`: pop the output stack, throwing a plain
`Error('No more values')` when empty. -/
def yBack (y : YardSt) : Except JErr (Expr × YardSt) :=
  match y.out with
  | [] => .error (.plain "No more values")
  | e :: rest => .ok (e, { y with out := rest })

/-- `Yard.write(sym)`. -/
def yWrite (e : Expr) (y : YardSt) : YardSt := { y with out := e :: y.out }

/-- The argument-collecting loop of the `Call` branch of `writePop`: pop
values until the `ArgListGuard`, then reverse them. -/
def popArgsGo : List Expr → List Expr → Except JErr (List Expr × List Expr)
  | _, [] => .error (.plain "No more values")
  | args, .argListGuard :: rest => .ok (args.reverse, rest)
  | args, e :: rest => popArgsGo (e :: args) rest

/-- `Yard.writePop(op)`: build the AST node for a popped operator.
`.` builds `Member`, `|` builds `Filter`, any other symbol builds `BinOp`,
and the synthetic call operator builds `FunctionCall` (whose `end` is the
`_end` register).  The defensive final `else` of the source is unreachable
here since only symbols and the call operator are representable. -/
def yWritePop (op : YOp) (y : YardSt) : Except JErr YardSt :=
  match op with
  | .sym "." _ _ => do
    let (property, y₁) ← yBack y
    let (object, y₂) ← yBack y₁
    .ok (yWrite (.member object property object.startO property.stopO) y₂)
  | .sym "|" _ _ => do
    let (f, y₁) ← yBack y
    let (value, y₂) ← yBack y₁
    .ok (yWrite (.filterE value f value.startO f.stopO) y₂)
  | .sym v s e => do
    let (right, y₁) ← yBack y
    let (left, y₂) ← yBack y₁
    .ok (yWrite (.binOp ⟨v, s, e⟩ left right left.startO right.stopO) y₂)
  | .callOp => do
    match popArgsGo [] y.out with
    | .error er => .error er
    | .ok (args, out') => do
      let (fn, y₂) ← yBack { y with out := out' }
      .ok (yWrite (.functionCall fn args fn.startO y.endL) y₂)

/-- `Yard.writeTerminated(terminator)`: pop-and-emit until the terminator
symbol is found (returned, removed from the stack) or the stack drains
(returning `undefined`). -/
def yWriteTerminatedGo (term : String) :
    List (Option YOp) → YardSt → Except JErr (Option YOp × YardSt)
  | [], y => .ok (none, { y with stack := [] })
  | top :: rest, y =>
    match top with
    | none => .error (.plain "TypeError")
    | some t =>
      if yopValueIs t term then .ok (some t, { y with stack := rest })
      else
        match yWritePop t { y with stack := rest } with
        | .error er => .error er
        | .ok y' => yWriteTerminatedGo term rest y'

/-- Entry point of `writeTerminated` over the current stack. -/
def yWriteTerminated (term : String) (y : YardSt) : Except JErr (Option YOp × YardSt) :=
  yWriteTerminatedGo term y.stack y

/-- The pop loop of `Yard.writeOperator`: while the stack's top operator
has higher precedence (or equal with a left-associative incoming operator),
pop and emit. -/
def yWriteOperatorGo (opi : Nat × Assoc) :
    List (Option YOp) → YardSt → Except JErr YardSt
  | [], y => .ok { y with stack := [] }
  | top :: rest, y =>
    match yOperatorInfo top with
    | .error er => .error er
    | .ok topi =>
      if (opi.2 = .left && opi.1 ≤ topi.1) || (opi.2 ≠ .left && opi.1 < topi.1) then
        match top with
        | some t =>
          match yWritePop t { y with stack := rest } with
          | .error er => .error er
          | .ok y' => yWriteOperatorGo opi rest y'
        | none => .error (.plain "TypeError")
      else
        .ok { y with stack := top :: rest }

/-- `Yard.writeOperator(op)`: pop higher-precedence operators, then push. -/
def yWriteOperator (op : YOp) (y : YardSt) : Except JErr YardSt := do
  let opi ← yOperatorInfo (some op)
  let y' ← yWriteOperatorGo opi y.stack y
  .ok { y' with stack := some op :: y'.stack }

/-- `Yard.process(tok, peek)` — the `peek` argument is unused in the
source as well. -/
def yProcess (tok : Event) (_peek : Event) (y : YardSt) : Except JErr YardSt :=
  match tok.kind with
  | .ident v =>
    .ok { yWrite (.variable v (some tok.start) (some tok.stop)) y with
          state := some "maybe-call" }
  | .number q =>
    .ok { yWrite (.numberE q (some tok.start) (some tok.stop)) y with
          state := some "number" }
  | .str =>
    .ok { yWrite (.stringE (some tok.start) (some tok.stop)) y with
          state := some "string" }
  | .symbol v =>
    if v = "(" then
      if y.state = some "maybe-call" then do
        let y₁ ← yWriteOperator .callOp y
        let y₂ := yWrite .argListGuard y₁
        .ok { y₂ with stack := some (.sym "(" tok.start tok.stop) :: y₂.stack,
                      state := none }
      else
        .ok { y with stack := some (.sym "(" tok.start tok.stop) :: y.stack,
                     state := none }
    else if v = ")" then do
      let (_, y₂) ← yWriteTerminated "(" { y with endL := some tok.stop }
      .ok { y₂ with state := some "maybe-call" }
    else if v = "," then do
      let (p, y₂) ← yWriteTerminated "(" y
      .ok { y₂ with stack := p :: y₂.stack, state := none }
    else do
      let y₁ ← yWriteOperator (.sym v tok.start tok.stop) y
      .ok { y₁ with state := none }
  | _ => throwSyntax tok.errLoc ("unexpected " ++ evTypeName tok.kind)

/-- The drain loop of `Yard.finish()`. -/
def yFinishGo : List (Option YOp) → YardSt → Except JErr YardSt
  | [], y => .ok { y with stack := [] }
  | top :: rest, y =>
    match top with
    | none => .error (.plain "TypeError")
    | some t =>
      if yopIsLParen t then
        match t with
        | .sym _ s e => throwSyntax ⟨some s, some e⟩ "Mismatched parenthesis"
        | .callOp => .error (.plain "TypeError")
      else
        match yWritePop t { y with stack := rest } with
        | .error er => .error er
        | .ok y' => yFinishGo rest y'

/-- `Yard.finish()`: drain the stack (an unmatched `(` is an error), then
return `out[0]` — which is `undefined` when no value was produced — after
checking that at most one value remains. -/
def yFinish (y : YardSt) : Except JErr (Option Expr) := do
  let y' ← yFinishGo y.stack y
  match y'.out.reverse with
  | [] => .ok none
  | [e] => .ok (some e)
  | _ :: e1 :: _ => throwSyntax e1.errLoc "Expression produced more than one value"

/-! ## Template AST (`Parser` output) -/

/-- An `Identifier` token as stored inside AST nodes (`name`, `macro`,
argument names): `{type: 'Identifier', value, start, end}`. -/
structure IdTok where
  value : String
  start : Loc
  stop : Loc
deriving Repr, DecidableEq

/-- A `Number` token as stored in `Argument.default`. -/
structure NumTok where
  value : ℚ
  start : Loc
  stop : Loc
deriving Repr, DecidableEq

/-- A macro argument declaration (`Argument` node); `dflt` embeds the JS
field `default`. -/
structure TArg where
  name : IdTok
  dflt : Option NumTok
  start : Loc
  stop : Loc
deriving Repr, DecidableEq

mutual
/-- The template AST.  Fields that receive the result of `expression()` are
`Option Expr` since the yard's `finish()` can return `undefined`;
`Template.extends` (`ext`) is always `null` in this revision. -/
inductive TNode where
  | text (txt : String) (start stop : Loc)
  | putValue (value : Option Expr) (filters : List (Option Expr)) (start stop : Loc)
  | caseStatement (arms : List Arm) (start stop : Loc)
  | forLoop (pattern : Expr) (iterable : Option Expr) (filterE : Option Expr)
      (body : TNode) (alternative : Option (List TNode)) (start stop : Loc)
  | scope (vars : List String) (body : List TNode) (start stop : Loc)
  | macroDef (name : IdTok) (args : List TArg) (body : TNode) (start stop : Loc)
  | macroCall (macroName : IdTok) (args : List (Option Expr)) (body : TNode)
      (start stop : Loc)
  | filterBlock (filterE : Option Expr) (body : TNode) (start stop : Loc)
  | assign (pattern : Expr) (value : Option Expr) (start stop : Loc)
  | callBlock (name : IdTok) (start stop : Loc)
  | block (name : IdTok) (body : TNode) (start stop : Loc)
  | template (ext : Option IdTok) (blocks : List TNode) (macros : List TNode)
      (body : TNode) (start stop : Loc)
/-- A `CaseStatement` arm. -/
inductive Arm where
  | mk (condition : Option Expr) (body : List TNode) (start stop : Loc)
end

deriving instance Repr for TNode
deriving instance Repr for Arm

/-! ## Parser state -/

/-- The parser's `Scope` helper class: declared variables (`vars` embeds
the JS field `variables`, a reserved word here) plus the start location;
`generate(end, body)` freezes it into a `Scope` node. -/
structure ScopeB where
  vars : List String
  start : Loc
deriving Repr

/-- `Scope.generate(end, body)`. -/
def ScopeB.generate (sb : ScopeB) (stop : Loc) (body : List TNode) : TNode :=
  .scope sb.vars body sb.start stop

/-- Which `statement` dispatcher a context carries (the source uses
function values; each corresponds to one of these tags). -/
inductive StmtKind where
  | root
  | ifK
  | elseK
  | forK
  | forElseK
  | macroK
  | callK
  | filterK
  | blockK
deriving Repr, DecidableEq

/-- An in-progress `Arm` (its `body` is the context's `body` accumulator
and its `end` is set when the arm is closed). -/
structure ArmB where
  condition : Option Expr
  start : Loc
deriving Repr

/-- The in-progress subtree carried by a context (`template` field). -/
inductive CtxTpl where
  | forL (pattern : Expr) (iterable filterE : Option Expr) (start : Loc)
  | forLElse (pattern : Expr) (iterable filterE : Option Expr) (body : TNode) (start : Loc)
  | macroT (name : IdTok) (args : List TArg) (start : Loc)
  | callT (macroName : IdTok) (args : List (Option Expr)) (start : Loc)
  | filterT (filterE : Option Expr) (start : Loc)
  | blockT (name : IdTok) (start : Loc)
deriving Repr

/-- One entry of the parser's context stack.  `start` is set by
`process()` on the top context each time a `{%`/`{{` tag begins, before
any handler reading it runs. -/
structure PCtx where
  scope : ScopeB
  body : List TNode := []
  stmt : StmtKind
  start : Option Loc := none
  arms : List Arm := []
  arm : Option ArmB := none
  template : Option CtxTpl := none
deriving Repr

/-- The parser state: shared source cursor, pushback stack (`events`,
top-first), name-keyed `blocks`/`macros` tables (insertion-ordered,
last write wins in place, like JS string-keyed objects), context stack
(top-first) and the construction-time `_start`. -/
structure PState where
  src : Src
  events : List Event := []
  blocks : List (String × TNode) := []
  macros : List (String × TNode) := []
  stack : List PCtx
  pstart : Loc
deriving Repr

/-- `new Parser(new Source(code))`. -/
def PState.init (code : List Char) : PState :=
  let s := Src.init code
  { src := s
    stack := [{ scope := ⟨[], s.location⟩, stmt := .root }]
    pstart := s.location }

/-- Insert-or-overwrite into a name-keyed table, preserving first-insertion
order (JS object assignment semantics). -/
def upsert (k : String) (v : α) : List (String × α) → List (String × α)
  | [] => [(k, v)]
  | (k', v') :: rest =>
    if k' = k then (k, v) :: rest else (k', v') :: upsert k v rest

/-- `Parser.next(strings)`: pop the pushback stack if non-empty (the
`strings` argument is ignored by `Array.pop`), otherwise lex. -/
def pNext (strings : Bool) (st : PState) : Event × PState :=
  match st.events with
  | ev :: rest => (ev, { st with events := rest })
  | [] =>
    let (ev, s') := st.src.next strings
    (ev, { st with src := s' })

/-- `Parser.peek(strings)`: `next` then push back. -/
def pPeek (strings : Bool) (st : PState) : Event × PState :=
  let (ev, st₁) := pNext strings st
  (ev, { st₁ with events := ev :: st₁.events })

/-- The `Parser.eos` getter: consume a token; at `EndOfStream` report true
(dropping the token), otherwise push it back. -/
def pEos (st : PState) : Bool × PState :=
  let (tok, st₁) := pNext false st
  match tok.kind with
  | .eos => (true, st₁)
  | _ => (false, { st₁ with events := tok :: st₁.events })

/-- A token's `value` as compared against string data (`Symbol`,
`Identifier` and `Character` tokens carry strings; a `Number`'s numeric
value never compares equal to a string). -/
def evValueStr : EvKind → Option String
  | .symbol v => some v
  | .ident v => some v
  | .chr v => some v
  | _ => none

/-- `Parser.expect(type, data)`. -/
def pExpect (ty : String) (data : String) (st : PState) : Except JErr PState :=
  let (ev, st₁) := pNext false st
  if evTypeName ev.kind ≠ ty then
    throwSyntax ev.errLoc ("Expected `" ++ ty ++ "` but got `" ++ evTypeName ev.kind ++ "`")
  else if (ty = "Symbol" || ty = "Identifier") && evValueStr ev.kind ≠ some data then
    throwSyntax ev.errLoc ("Expected " ++ data)
  else .ok st₁

/-- `Parser.check(type, data)`: like `expect` but non-consuming (peek) and
non-throwing. -/
def pCheck (ty : String) (data : String) (st : PState) : Bool × PState :=
  let (ev, st₁) := pPeek false st
  if evTypeName ev.kind ≠ ty then (false, st₁)
  else if (ty = "Symbol" || ty = "Identifier") && evValueStr ev.kind ≠ some data then
    (false, st₁)
  else (true, st₁)

/-- `Parser.identifier()`. -/
def pIdentifier (st : PState) : Except JErr (IdTok × PState) :=
  let (ev, st₁) := pNext false st
  match ev.kind with
  | .ident v => .ok (⟨v, ev.start, ev.stop⟩, st₁)
  | _ => throwSyntax ev.errLoc "Expected identifier"

/-- An identifier token's error location. -/
def IdTok.errLoc (id : IdTok) : ErrLoc := ⟨some id.start, some id.stop⟩

/-- `Parser.context` (the stack is never empty while `process()` runs;
an empty stack would be a crash on `undefined`). -/
def pTop (st : PState) : Except JErr (PCtx × List PCtx) :=
  match st.stack with
  | c :: rest => .ok (c, rest)
  | [] => .error (.plain "TypeError")

/-- Read a context's `start`.  `process()` always assigns it before
dispatching, so it is present whenever a handler reads it; an absent
`start` (only reachable by calling a handler out of context) is reported
as an error. -/
def pCtxStart (c : PCtx) : Except JErr Loc :=
  match c.start with
  | some l => .ok l
  | none => .error (.plain "undefined context start")

/-- `Parser.putText(start, end)`: append a `Text` node holding the raw
source slice to the current body. -/
def pPutText (start stop : Loc) (st : PState) : Except JErr PState := do
  let (c, rest) ← pTop st
  .ok { st with stack :=
    { c with body := c.body ++ [.text (String.mk (st.src.substr start stop)) start stop] } :: rest }

/-- Is this token one of the terminators of the current `expression()`
call (a listed symbol value, or a listed keyword identifier)? -/
def isTermTok (tok : Event) (terms kwTerms : List String) : Bool :=
  match tok.kind with
  | .symbol v => terms.contains v
  | .ident v => kwTerms.contains v
  | _ => false

/-- The token loop of `Parser.expression`: feed tokens (lexed with
`strings = true`) into a yard until `eos` or a terminator, then
`yard.finish()`. -/
def pExprLoop (fuel : Nat) (terms kwTerms : List String) (y : YardSt) (st : PState) :
    Except JErr (Option Expr × PState) :=
  match fuel with
  | 0 => .error (.plain "out of fuel")
  | fuel + 1 =>
    let (isE, st₁) := pEos st
    if isE then do
      let r ← yFinish y
      .ok (r, st₁)
    else
      let (tok, st₂) := pPeek true st₁
      if isTermTok tok terms kwTerms then do
        let r ← yFinish y
        .ok (r, st₂)
      else
        let (t1, st₃) := pNext true st₂
        let (t2, st₄) := pPeek true st₃
        match yProcess t1 t2 y with
        | .error e => .error e
        | .ok y' => pExprLoop fuel terms kwTerms y' st₄

/-- `Parser.expression(terminators, kwTerminators)` — note the initial
bare `this.peek(true)`, which makes the first token be lexed with the
strings flag set. -/
def pExpression (fuel : Nat) (terms kwTerms : List String) (st : PState) :
    Except JErr (Option Expr × PState) :=
  let (_, st₁) := pPeek true st
  pExprLoop fuel terms kwTerms {} st₁

/-- The name-collecting loop of `Parser.pattern()`; returns the `Variable`
nodes and the end location of the last name. -/
def pPatternLoop (fuel : Nat) (names : List Expr) (st : PState) :
    Except JErr (List Expr × Loc × PState) :=
  match fuel with
  | 0 => .error (.plain "out of fuel")
  | fuel + 1 => do
    let (nameTok, st₁) ← pIdentifier st
    let names' := names ++ [.variable nameTok.value (some nameTok.start) (some nameTok.stop)]
    let (hasComma, st₂) := pCheck "Symbol" "," st₁
    if hasComma then
      let (_, st₃) := pNext false st₂
      pPatternLoop fuel names' st₃
    else .ok (names', nameTok.stop, st₂)

/-- `Parser.pattern()`: one or more comma-separated identifiers; a single
name yields the `Variable` itself, two or more an `Unpack`. -/
def pPattern (fuel : Nat) (st : PState) : Except JErr (Expr × PState) := do
  let (startEv, st₁) := pPeek false st
  let (names, endLoc, st₂) ← pPatternLoop fuel [] st₁
  match names with
  | [n] => .ok (n, st₂)
  | ns => .ok (.unpack ns (some startEv.start) (some endLoc), st₂)

/-- `Parser.literal()`: only `Number` tokens are accepted. -/
def pLiteral (st : PState) : Except JErr (NumTok × PState) :=
  let (tok, st₁) := pNext false st
  match tok.kind with
  | .number q => .ok (⟨q, tok.start, tok.stop⟩, st₁)
  | _ => throwSyntax tok.errLoc "Expected a literal value"

/-! ## Statement handlers -/

/-- `Parser.if`: parse the condition and push an if-context carrying the
first in-progress arm (sharing the enclosing scope). -/
def pIf (fuel : Nat) (st : PState) : Except JErr PState := do
  let (cond, st₁) ← pExpression fuel ["%\x7d"] [] st
  let (c, _) ← pTop st₁
  let s ← pCtxStart c
  .ok { st₁ with stack :=
    { scope := c.scope, body := [], stmt := .ifK, arms := [],
      arm := some ⟨cond, s⟩ } :: st₁.stack }

/-- `Parser.endif`: close the open arm and emit the `CaseStatement` into
the parent body. -/
def pEndif (st : PState) : Except JErr PState := do
  let (c, rest) ← pTop st
  match c.arm with
  | none => .error (.plain "TypeError")
  | some a =>
    let finished : Arm := .mk a.condition c.body a.start st.src.location
    let arms' := c.arms ++ [finished]
    match rest with
    | [] => .error (.plain "TypeError")
    | p :: rest' => do
      let ps ← pCtxStart p
      .ok { st with stack :=
        { p with body := p.body ++ [.caseStatement arms' ps st.src.location] } :: rest' }

/-- `Parser.elif`: close the open arm, parse the next condition, push a
fresh if-context with the same arms list. -/
def pElif (fuel : Nat) (st : PState) : Except JErr PState := do
  let (c, rest) ← pTop st
  match c.arm with
  | none => .error (.plain "TypeError")
  | some a =>
    let s ← pCtxStart c
    let finished : Arm := .mk a.condition c.body a.start st.src.location
    let arms' := c.arms ++ [finished]
    let (cond, st₂) ← pExpression fuel ["%\x7d"] [] { st with stack := rest }
    let (p, _) ← pTop st₂
    .ok { st₂ with stack :=
      { scope := p.scope, body := [], stmt := .ifK, arms := arms',
        arm := some ⟨cond, s⟩ } :: st₂.stack }

/-- `Parser.else`: close the open arm and push a final arm whose condition
is a `Boolean(true)` literal with a zero-width span at the popped
context's `start` (the `{%` opening the `{% else %}` tag). -/
def pElse (st : PState) : Except JErr PState := do
  let (c, rest) ← pTop st
  match c.arm with
  | none => .error (.plain "TypeError")
  | some a =>
    let s ← pCtxStart c
    let finished : Arm := .mk a.condition c.body a.start st.src.location
    let arms' := c.arms ++ [finished]
    match rest with
    | [] => .error (.plain "TypeError")
    | p :: _ =>
      .ok { st with stack :=
        { scope := p.scope, body := [], stmt := .elseK, arms := arms',
          arm := some ⟨some (.boolean true (some s) (some s)), s⟩ } :: rest }

/-- `Parser.for`: pattern, `in`, iterable (terminated by `%}` or the
keyword `if`), optional filter; push a for-context with a fresh scope
starting after the tag. -/
def pFor (fuel : Nat) (st : PState) : Except JErr PState := do
  let (pat, st₁) ← pPattern fuel st
  let st₂ ← pExpect "Identifier" "in" st₁
  let (iter, st₃) ← pExpression fuel ["%\x7d"] ["if"] st₂
  let (hasIf, st₄) := pCheck "Identifier" "if" st₃
  let (filt, st₅) ←
    if hasIf then do
      let (_, s') := pNext false st₄
      pExpression fuel ["%\x7d"] [] s'
    else (pure (none, st₄) : Except JErr (Option Expr × PState))
  let (c, _) ← pTop st₅
  let s ← pCtxStart c
  .ok { st₅ with stack :=
    { scope := ⟨[], st₅.src.location⟩, body := [], stmt := .forK,
      template := some (.forL pat iter filt s) } :: st₅.stack }

/-- `Parser.elsefor`: freeze the loop body scope and start collecting the
flat `alternative` list (sharing the parent's scope). -/
def pElsefor (st : PState) : Except JErr PState := do
  let (c, rest) ← pTop st
  match c.template with
  | some (.forL pat iter filt ts) => do
    let s ← pCtxStart c
    let bodyScope := c.scope.generate s c.body
    match rest with
    | [] => .error (.plain "TypeError")
    | p :: _ =>
      .ok { st with stack :=
        { scope := p.scope, body := [], stmt := .forElseK,
          template := some (.forLElse pat iter filt bodyScope ts) } :: rest }
  | _ => .error (.plain "TypeError")

/-- `Parser.endforelse`: attach the alternative list and emit the
`ForLoop`. -/
def pEndforelse (st : PState) : Except JErr PState := do
  let (c, rest) ← pTop st
  match c.template with
  | some (.forLElse pat iter filt bodyS ts) =>
    match rest with
    | [] => .error (.plain "TypeError")
    | p :: rest' =>
      .ok { st with stack :=
        { p with body := p.body ++
            [.forLoop pat iter filt bodyS (some c.body) ts st.src.location] } :: rest' }
  | _ => .error (.plain "TypeError")

/-- `Parser.endfor`: freeze the body scope and emit the `ForLoop` (no
alternative). -/
def pEndfor (st : PState) : Except JErr PState := do
  let (c, rest) ← pTop st
  match c.template with
  | some (.forL pat iter filt ts) => do
    let s ← pCtxStart c
    let bodyScope := c.scope.generate s c.body
    match rest with
    | [] => .error (.plain "TypeError")
    | p :: rest' =>
      .ok { st with stack :=
        { p with body := p.body ++
            [.forLoop pat iter filt bodyScope none ts st.src.location] } :: rest' }
  | _ => .error (.plain "TypeError")

/-- The argument loop of `Parser.macro`:
`while (!eos && !check(')')) { identifier [= literal] ... , }`, where each
argument's `end` is the start of the following peeked token. -/
def pMacroArgs (fuel : Nat) (acc : List TArg) (st : PState) :
    Except JErr (List TArg × PState) :=
  match fuel with
  | 0 => .error (.plain "out of fuel")
  | fuel + 1 =>
    let (isE, st₁) := pEos st
    if isE then .ok (acc, st₁)
    else
      let (isRp, st₂) := pCheck "Symbol" ")" st₁
      if isRp then .ok (acc, st₂)
      else do
        let (arg, st₃) ← pIdentifier st₂
        let (hasEq, st₄) := pCheck "Symbol" "=" st₃
        let (dflt, st₅) ←
          if hasEq then do
            let (_, s') := pNext false st₄
            let (lit, s'') ← pLiteral s'
            (pure (some lit, s'') : Except JErr (Option NumTok × PState))
          else (pure (none, st₄) : Except JErr (Option NumTok × PState))
        let (peekEv, st₆) := pPeek false st₅
        let acc' := acc ++ [⟨arg, dflt, arg.start, peekEv.start⟩]
        let (isRp2, st₇) := pCheck "Symbol" ")" st₆
        if isRp2 then .ok (acc', st₇)
        else do
          let st₈ ← pExpect "Symbol" "," st₇
          pMacroArgs fuel acc' st₈

/-- `Parser.macro`: name, parenthesised argument declarations, then push a
macro context whose fresh scope starts after the tag (hence the bare
`peek()` before pushing). -/
def pMacroOpen (fuel : Nat) (st : PState) : Except JErr PState := do
  let (name, st₁) ← pIdentifier st
  let st₂ ← pExpect "Symbol" "(" st₁
  let (args, st₃) ← pMacroArgs fuel [] st₂
  let st₄ ← pExpect "Symbol" ")" st₃
  let (_, st₅) := pPeek false st₄
  let (c, _) ← pTop st₅
  let s ← pCtxStart c
  .ok { st₅ with stack :=
    { scope := ⟨[], st₅.src.location⟩, body := [], stmt := .macroK,
      template := some (.macroT name args s) } :: st₅.stack }

/-- `Parser.endmacro`: freeze the body scope and register the macro by
name. -/
def pMacroClose (st : PState) : Except JErr PState := do
  let (c, rest) ← pTop st
  match c.template with
  | some (.macroT name args ts) => do
    let s ← pCtxStart c
    let bodyScope := c.scope.generate s c.body
    let entry : TNode := .macroDef name args bodyScope ts st.src.location
    .ok { st with
      stack := rest
      macros := upsert name.value entry st.macros }
  | _ => .error (.plain "TypeError")

/-- The argument loop of `Parser.call`:
`while (!eos) { args.push(expression([',', ')'])); if (check(')')) break; expect(',') }`. -/
def pCallArgs (fuel : Nat) (acc : List (Option Expr)) (st : PState) :
    Except JErr (List (Option Expr) × PState) :=
  match fuel with
  | 0 => .error (.plain "out of fuel")
  | fuel + 1 =>
    let (isE, st₁) := pEos st
    if isE then .ok (acc, st₁)
    else do
      let (e, st₂) ← pExpression fuel [",", ")"] [] st₁
      let acc' := acc ++ [e]
      let (isRp, st₃) := pCheck "Symbol" ")" st₂
      if isRp then .ok (acc', st₃)
      else do
        let st₄ ← pExpect "Symbol" "," st₃
        pCallArgs fuel acc' st₄

/-- `Parser.call`: macro name, call arguments, then push a call context
with a fresh body scope. -/
def pCallOpen (fuel : Nat) (st : PState) : Except JErr PState := do
  let (name, st₁) ← pIdentifier st
  let st₂ ← pExpect "Symbol" "(" st₁
  let (args, st₃) ← pCallArgs fuel [] st₂
  let st₄ ← pExpect "Symbol" ")" st₃
  let (_, st₅) := pPeek false st₄
  let (c, _) ← pTop st₅
  let s ← pCtxStart c
  .ok { st₅ with stack :=
    { scope := ⟨[], st₅.src.location⟩, body := [], stmt := .callK,
      template := some (.callT name args s) } :: st₅.stack }

/-- `Parser.endcall`: freeze the body scope into the `MacroCall` and emit
it. -/
def pCallClose (st : PState) : Except JErr PState := do
  let (c, rest) ← pTop st
  match c.template with
  | some (.callT name args ts) => do
    let s ← pCtxStart c
    let bodyScope := c.scope.generate s c.body
    match rest with
    | [] => .error (.plain "TypeError")
    | p :: rest' =>
      .ok { st with stack :=
        { p with body := p.body ++
            [.macroCall name args bodyScope ts st.src.location] } :: rest' }
  | _ => .error (.plain "TypeError")

/-- `Parser.filter`: parse the filter expression and push a filter context
with a fresh body scope. -/
def pFilterOpen (fuel : Nat) (st : PState) : Except JErr PState := do
  let (f, st₁) ← pExpression fuel ["%\x7d"] [] st
  let (c, _) ← pTop st₁
  let s ← pCtxStart c
  .ok { st₁ with stack :=
    { scope := ⟨[], st₁.src.location⟩, body := [], stmt := .filterK,
      template := some (.filterT f s) } :: st₁.stack }

/-- `Parser.endfilter`: freeze the body scope and emit the `Filter` block
node. -/
def pFilterClose (st : PState) : Except JErr PState := do
  let (c, rest) ← pTop st
  match c.template with
  | some (.filterT f ts) => do
    let s ← pCtxStart c
    let bodyScope := c.scope.generate s c.body
    match rest with
    | [] => .error (.plain "TypeError")
    | p :: rest' =>
      .ok { st with stack :=
        { p with body := p.body ++
            [.filterBlock f bodyScope ts st.src.location] } :: rest' }
  | _ => .error (.plain "TypeError")

/-- `Parser.set`: pattern `=` expression, emitted directly into the
current body (no open context). -/
def pSet (fuel : Nat) (st : PState) : Except JErr PState := do
  let (pat, st₁) ← pPattern fuel st
  let st₂ ← pExpect "Symbol" "=" st₁
  let (v, st₃) ← pExpression fuel ["%\x7d"] [] st₂
  let (c, rest) ← pTop st₃
  let s ← pCtxStart c
  .ok { st₃ with stack :=
    { c with body := c.body ++ [.assign pat v s st₃.src.location] } :: rest }

/-- `Parser.block`: block name, then push a block context with a fresh
scope starting after the tag. -/
def pBlockOpen (st : PState) : Except JErr PState := do
  let (name, st₁) ← pIdentifier st
  let (_, st₂) := pPeek false st₁
  let (c, _) ← pTop st₂
  let s ← pCtxStart c
  .ok { st₂ with stack :=
    { scope := ⟨[], st₂.src.location⟩, body := [], stmt := .blockK,
      template := some (.blockT name s) } :: st₂.stack }

/-- `Parser.endblock`: emit a `CallBlock` reference at the render site and
register the `Block` (with the frozen body scope) by name. -/
def pBlockClose (st : PState) : Except JErr PState := do
  let (c, rest) ← pTop st
  match c.template with
  | some (.blockT name ts) => do
    let s ← pCtxStart c
    let st₁ := { st with stack := rest }
    let (_, st₂) := pPeek false st₁
    let endLoc := st₂.src.location
    match st₂.stack with
    | [] => .error (.plain "TypeError")
    | p :: rest' =>
      let bodyScope := c.scope.generate s c.body
      .ok { st₂ with
        stack := { p with body := p.body ++ [.callBlock name ts endLoc] } :: rest'
        blocks := upsert name.value (.block name bodyScope ts endLoc) st₂.blocks }
  | _ => .error (.plain "TypeError")

/-- The per-context `statement` dispatchers (`ifStatement`,
`elseStatement`, `forStatement`, ...), selecting the close/mid keyword
handlers legal in the current context. -/
def pDispatchCtx (fuel : Nat) (k : StmtKind) (id : IdTok) (st : PState) :
    Except JErr PState :=
  match k with
  | .root => throwSyntax id.errLoc "Invalid statement"
  | .ifK =>
    match id.value with
    | "else" => pElse st
    | "elif" => pElif fuel st
    | "endif" => pEndif st
    | _ => throwSyntax id.errLoc "Invalid statement"
  | .elseK =>
    match id.value with
    | "endif" => pEndif st
    | _ => throwSyntax id.errLoc "Invalid statement"
  | .forK =>
    match id.value with
    | "endfor" => pEndfor st
    | "else" => pElsefor st
    | _ => throwSyntax id.errLoc "Invalid statement"
  | .forElseK =>
    match id.value with
    | "endfor" => pEndforelse st
    | _ => throwSyntax id.errLoc "Invalid statement"
  | .macroK =>
    match id.value with
    | "endmacro" => pMacroClose st
    | _ => throwSyntax id.errLoc "Invalid statement"
  | .callK =>
    match id.value with
    | "endcall" => pCallClose st
    | _ => throwSyntax id.errLoc "Invalid statement"
  | .filterK =>
    match id.value with
    | "endfilter" => pFilterClose st
    | _ => throwSyntax id.errLoc "Invalid statement"
  | .blockK =>
    match id.value with
    | "endblock" => pBlockClose st
    | _ => throwSyntax id.errLoc "Invalid statement"

/-- `Parser.statement()`: read the keyword, dispatch, then require the
closing `%}`. -/
def pStatement (fuel : Nat) (st : PState) : Except JErr PState := do
  let (id, st₁) ← pIdentifier st
  let st₂ ←
    match id.value with
    | "if" => pIf fuel st₁
    | "for" => pFor fuel st₁
    | "block" => pBlockOpen st₁
    | "macro" => pMacroOpen fuel st₁
    | "call" => pCallOpen fuel st₁
    | "filter" => pFilterOpen fuel st₁
    | "set" => pSet fuel st₁
    | _ => do
      let (c, _) ← pTop st₁
      pDispatchCtx fuel c.stmt id st₁
  pExpect "Symbol" "%\x7d" st₂

/-- The filter loop of `Parser.putValue`:
`while (this.peek().value === '|') { next(); filters.push(expression(...)) }`. -/
def pPutFilters (fuel : Nat) (acc : List (Option Expr)) (st : PState) :
    Except JErr (List (Option Expr) × PState) :=
  match fuel with
  | 0 => .error (.plain "out of fuel")
  | fuel + 1 =>
    let (pk, st₁) := pPeek false st
    if evValueStr pk.kind = some "|" then do
      let (_, st₂) := pNext false st₁
      let (f, st₃) ← pExpression fuel ["|", "\x7d\x7d"] [] st₂
      pPutFilters fuel (acc ++ [f]) st₃
    else .ok (acc, st₁)

/-- `Parser.putValue()`: expression plus filter chain; the node's `end` is
the source location just before the closing `}}` is consumed from the
pushback (i.e. already past it). -/
def pPutValue (fuel : Nat) (st : PState) : Except JErr PState := do
  let (v, st₁) ← pExpression fuel ["|", "\x7d\x7d"] [] st
  let (filters, st₂) ← pPutFilters fuel [] st₁
  let endLoc := st₂.src.location
  let st₃ ← pExpect "Symbol" "\x7d\x7d" st₂
  let (c, rest) ← pTop st₃
  let s ← pCtxStart c
  .ok { st₃ with stack :=
    { c with body := c.body ++ [.putValue v filters s endLoc] } :: rest }

/-- The driver of `Parser.process()`: walk the raw token stream
(`source.events()`, which bypasses the pushback), flush text runs, and
dispatch on `{{` / `{%`; at end of stream flush the trailing text using the
final token from `this.next()`. -/
def pProcessLoop (fuel : Nat) (start : Loc) (st : PState) : Except JErr PState :=
  match fuel with
  | 0 => .error (.plain "out of fuel")
  | fuel + 1 =>
    if st.src.eos then
      let (eosEv, st₁) := pNext false st
      if 0 < eosEv.start.offset - start.offset then pPutText start eosEv.start st₁
      else .ok st₁
    else
      let (ev, s') := st.src.next false
      let st₁ := { st with src := s' }
      match ev.kind with
      | .symbol v =>
        if v = "\x7b%" || v = "\x7b\x7b" then do
          let st₂ ←
            if 0 < ev.start.offset - start.offset then pPutText start ev.start st₁
            else (pure st₁ : Except JErr PState)
          let (c, rest) ← pTop st₂
          let st₃ := { st₂ with stack := { c with start := some ev.start } :: rest }
          let st₄ ←
            if v = "\x7b\x7b" then pPutValue (fuel + 1) st₃
            else pStatement (fuel + 1) st₃
          pProcessLoop fuel st₄.src.location st₄
        else pProcessLoop fuel start st₁
      | _ => pProcessLoop fuel start st₁

/-- `Parser.process()`. -/
def pProcess (fuel : Nat) (st : PState) : Except JErr PState :=
  pProcessLoop fuel st.src.location st

/-- `Parser.generate()`: pop the root context; a non-empty remaining stack
means an unclosed block (reported with the popped context's scope, which
has a `start` but no `end`); otherwise freeze the template. -/
def pGenerate (st : PState) : Except JErr TNode :=
  match st.stack with
  | [] => .error (.plain "TypeError")
  | c :: rest =>
    if 0 < rest.length then
      throwSyntax ⟨some c.scope.start, none⟩ "Unclosed block"
    else
      .ok (.template none (st.blocks.map Prod.snd) (st.macros.map Prod.snd)
        (c.scope.generate st.src.location c.body) st.pstart st.src.location)

/-- Parse a whole template: `process()` then `generate()`. -/
def parseTemplate (fuel : Nat) (code : List Char) : Except JErr TNode := do
  let st ← pProcess fuel (PState.init code)
  pGenerate st

/-- Run `Parser.expression` on a standalone source string with no
terminators (the loop then ends at end of stream). -/
def parseExprString (fuel : Nat) (code : List Char) : Except JErr (Option Expr) := do
  let (e, _) ← pExpression fuel [] [] (PState.init code)
  .ok e

/-! ## Claims about the parser (C4, C7, C8) -/

/-- The structural shape of a parsed expression, forgetting spans,
operator-token locations and literal payloads; node kinds other than the
ones under test collapse to `other`. -/
inductive EShape where
  | var (n : String)
  | bin (op : String) (l r : EShape)
  | mem (o p : EShape)
  | filt (v f : EShape)
  | other
deriving Repr, DecidableEq

/-- Forget everything about an expression except its nesting structure. -/
def exprShape : Expr → EShape
  | .variable n _ _ => .var n
  | .binOp op l r _ _ => .bin op.value (exprShape l) (exprShape r)
  | .member o p _ _ => .mem (exprShape o) (exprShape p)
  | .filterE v f _ _ => .filt (exprShape v) (exprShape f)
  | _ => .other

/-- Shape of the expression parsed from a standalone source string
(`other` when parsing fails or produces no value). -/
def shapeOfParse (code : List Char) : EShape :=
  match parseExprString 200 code with
  | .ok (some e) => exprShape e
  | _ => .other

/-- The operators of the `OPERATORS` table whose `writePop` emits a
`BinOp` node, with their precedences: every table entry except `.`
(which emits `Member`), `|` (which emits `Filter`), the `(` sentinel and
the synthetic call operator. -/
def binOpSyms : List (String × Nat) :=
  [("!=", 200), ("%", 400), ("*", 400), ("**", 500), ("+", 300), ("-", 300),
   ("/", 400), ("<", 200), ("<=", 200), ("=", 100), ("==", 200), (">", 200),
   (">=", 200)]

/-- The test source `x a y b z`. -/
def mkExprSrc (a b : String) : List Char :=
  "x ".data ++ a.data ++ " y ".data ++ b.data ++ " z".data

/-- Parsing `x a y b z` gives the right-nested `BinOp(a, x, BinOp(b, y, z))`. -/
def chkRightNest (a b : String) : Bool :=
  shapeOfParse (mkExprSrc a b) = .bin a (.var "x") (.bin b (.var "y") (.var "z"))

/-- Parsing `x a y b z` gives the left-nested `BinOp(b, BinOp(a, x, y), z)`. -/
def chkLeftNest (a b : String) : Bool :=
  shapeOfParse (mkExprSrc a b) = .bin b (.bin a (.var "x") (.var "y")) (.var "z")

/-- C7, counterexample.  The claim quantifies over the binary operators of
the operator table, but `|` and `.` are in that table and do not produce
`BinOp` nodes: `x | y + z` (with `prec(|) = 50 < prec(+) = 300`) parses to
a `Filter` node at the root, and `x = y . z` (with
`prec(=) = 100 < prec(.) = 600`) parses to a `BinOp(=)` whose right child
is a `Member` node — in neither case `BinOp(a, x, BinOp(b, y, z))`. -/
theorem c7_counterexample :
    shapeOfParse "x | y + z".data =
      .filt (.var "x") (.bin "+" (.var "y") (.var "z")) ∧
    shapeOfParse "x = y . z".data =
      .bin "=" (.var "x") (.mem (.var "y") (.var "z")) := by
  exact ⟨by decide, by decide⟩

/-- C7, amended: for every pair of operators `a, b` drawn from the
`BinOp`-producing part of the operator table (all entries except `.` and
`|`, which produce `Member` and `Filter` nodes with the same nesting),
`prec(a) < prec(b)` makes `x a y b z` parse right-nested as
`BinOp(a, x, BinOp(b, y, z))`; equal precedence with left associativity
parses left-nested as `BinOp(b, BinOp(a, x, y), z)`; and the
right-associative `**` parses `x ** y ** z` right-nested. -/
theorem c7_amended :
    (binOpSyms.all fun ap => binOpSyms.all fun bp =>
      !decide (ap.2 < bp.2) || chkRightNest ap.1 bp.1) = true ∧
    (binOpSyms.all fun ap => binOpSyms.all fun bp =>
      !(decide (ap.2 = bp.2) && !decide (ap.1 = "**") && !decide (bp.1 = "**"))
        || chkLeftNest ap.1 bp.1) = true ∧
    chkRightNest "**" "**" = true := by
  exact ⟨by decide, by decide, by decide⟩

/-- The second arm's condition of the single `CaseStatement` parsed from a
template, when the template has that exact shape. -/
def elseArmCondOfParse (r : Except JErr TNode) : Option (Option Expr) :=
  match r with
  | .ok (.template _ _ _ (.scope _ [.caseStatement [_, .mk cond _ _ _] _ _] _ _) _ _) =>
    some cond
  | _ => none

/-- C4, counterexample.  In `{% if x %}a{% else %}b{% endif %}` the
synthesized else-arm condition is `Boolean(true)` with the zero-width span
`[11, 11)` — the position of the `{%` that *opens* the `{% else %}` tag —
while the `%}` that closes that tag sits at offsets 19–20.  The claim
locates the span at the closing `%}`, which is false. -/
theorem c4_counterexample :
    elseArmCondOfParse
        (parseTemplate 1000 "\x7b% if x %\x7da\x7b% else %\x7db\x7b% endif %\x7d".data) =
      some (some (.boolean true (some ⟨11, 1, 11⟩) (some ⟨11, 1, 11⟩))) ∧
    ("\x7b% if x %\x7da\x7b% else %\x7db\x7b% endif %\x7d".data.drop 19).take 2 =
      ['%', '\x7d'] ∧
    (11 : Nat) ≠ 19 := by
  exact ⟨by rfl, by decide, by decide⟩

/-- C4, amended: `Parser.else`, run on an if-context whose `start` was set
(by `process()`, to the start of the `{%` opening the `{% else %}` tag),
closes the open arm and pushes a final arm whose condition is a Boolean
literal with value `true` and a zero-width span (`start = end`) located at
that `{%` — not at the closing `%}`. -/
theorem c4_amended (st : PState) (c p : PCtx) (rest : List PCtx)
    (a : ArmB) (l : Loc)
    (hstack : st.stack = c :: p :: rest)
    (harm : c.arm = some a)
    (hstart : c.start = some l) :
    pElse st = .ok { st with stack :=
      { scope := p.scope, body := [], stmt := .elseK,
        arms := c.arms ++ [.mk a.condition c.body a.start st.src.location],
        arm := some ⟨some (.boolean true (some l) (some l)), l⟩ } :: p :: rest } := by
  unfold pElse pTop pCtxStart
  rw [hstack]
  simp only [Except.bind, bind, harm, hstart]

/-- Witness for C4's amended theorem at a concrete parser state. -/
theorem c4_amended_witness :
    pElse { src := Src.init [], stack := [
        { scope := ⟨[], ⟨0, 1, 0⟩⟩, stmt := .ifK, start := some ⟨5, 1, 5⟩,
          arm := some ⟨none, ⟨0, 1, 0⟩⟩ },
        { scope := ⟨[], ⟨0, 1, 0⟩⟩, stmt := .root }], pstart := ⟨0, 1, 0⟩ } =
    .ok { src := Src.init [], stack := [
        { scope := ⟨[], ⟨0, 1, 0⟩⟩, stmt := .elseK,
          arms := [.mk none [] ⟨0, 1, 0⟩ ⟨0, 1, 0⟩],
          arm := some ⟨some (.boolean true (some ⟨5, 1, 5⟩) (some ⟨5, 1, 5⟩)), ⟨5, 1, 5⟩⟩ },
        { scope := ⟨[], ⟨0, 1, 0⟩⟩, stmt := .root }], pstart := ⟨0, 1, 0⟩ } :=
  c4_amended _ _ _ _ _ _ rfl rfl rfl

/-- C8, counterexample.  Not every error raised during parsing is a
`SyntaxError`: parsing `{{ + }}` underflows the yard's value stack in
`Yard.back`, which throws a plain `Error('No more values')` with no
`name`/`location` payload. -/
theorem c8_counterexample :
    parseTemplate 1000 "\x7b\x7b + \x7d\x7d".data =
      .error (.plain "No more values") := by
  rfl

/-- C8, amended: every error built through the `SyntaxError` constructor
has `name = "SyntaxError"`, a message beginning `(<line>:<column>) ` taken
from the start of the given location (the offending token's first
character), and a `location` carrying that start; the `end` is copied from
the argument and is *absent* when the argument has none — as for the
`Unclosed block` error, raised with a `Scope` that has a `start` but no
`end`.  A typical token-located error (`{% fi x %}`) carries both ends,
while the yard's value-stack underflow (see the counterexample) is a plain
`Error`, not a `SyntaxError`. -/
theorem c8_amended :
    (∀ (start : Loc) (stop : Option Loc) (msg : String),
      (mkSyntaxError start stop msg).name = "SyntaxError" ∧
      (mkSyntaxError start stop msg).message =
        "(" ++ toString start.line ++ ":" ++ toString start.column ++ ") " ++ msg ∧
      (mkSyntaxError start stop msg).locStart = start ∧
      (mkSyntaxError start stop msg).locEnd = stop) ∧
    parseTemplate 1000 "\x7b% fi x %\x7d".data =
      .error (.syntaxErr
        { name := "SyntaxError", message := "(1:3) Invalid statement",
          locStart := ⟨3, 1, 3⟩, locEnd := some ⟨5, 1, 5⟩ }) ∧
    parseTemplate 1000 "\x7b% if x %\x7d".data =
      .error (.syntaxErr
        { name := "SyntaxError", message := "(1:0) Unclosed block",
          locStart := ⟨0, 1, 0⟩, locEnd := none }) := by
  refine ⟨fun start stop msg => ⟨rfl, rfl, rfl, rfl⟩, by rfl, by rfl⟩

/-! ## Target AST and builders (`src/lib/estree.js`) -/

/-- A position inside an ESTree `loc`: `est.loc` called with bare
line/column numbers produces positions without an `offset`. -/
structure EPos where
  offset : Option Nat
  line : Nat
  column : Nat
deriving Repr, DecidableEq

/-- Lift a lexer location into an ESTree position. -/
def EPos.ofLoc (l : Loc) : EPos := ⟨some l.offset, l.line, l.column⟩

/-- A value produced by `est.loc`: normally `{source, start, end}` (whose
ends can be `undefined`), but when called with only a start position the
bare position object itself is returned. -/
inductive ELocV where
  | full (source : Option String) (s e : Option EPos)
  | pos (p : EPos)
deriving Repr, DecidableEq

/-- `est.loc(start, end)` on two possibly-`undefined` positions, following
the argument juggling of the variadic `loc`: both present give a full
location; only `start` returns the bare position; only `end` gives a full
location with an undefined start; neither gives `null`. -/
def estLoc2 : Option Loc → Option Loc → Option ELocV
  | some s, some e => some (.full none (some (EPos.ofLoc s)) (some (EPos.ofLoc e)))
  | some s, none => some (.pos (EPos.ofLoc s))
  | none, some e => some (.full none none (some (EPos.ofLoc e)))
  | none, none => none

/-- `est.loc(l1, c1, l2, c2)` with four plain numbers. -/
def estLoc4 (l1 c1 l2 c2 : Nat) : ELocV :=
  .full none (some ⟨none, l1, c1⟩) (some ⟨none, l2, c2⟩)

/-- A `Literal`'s value: string, number, boolean, `null`, or `undefined`
(the latter arises from `String` expression tokens, which carry no decoded
value). -/
inductive LitVal where
  | str (s : String)
  | num (q : ℚ)
  | bool (b : Bool)
  | nullL
  | undef
deriving Repr, DecidableEq

mutual
/-- The target (ESTree-style) AST, restricted to the node kinds the
compiler pipeline builds.  Builder classes with bodies (`Program`,
`Function`, `BlockStatement`, `IfStatement`, `ForStatement`) are frozen
into their body lists; a `VariableDeclaration`'s declarators are
`(id, init)` pairs; `functionE`'s first field is the JS `type` string
(`FunctionExpression` or `ArrowFunctionExpression`); `updateE.pfx` embeds
the JS field `prefix`. -/
inductive ENode where
  | program (sourceType : String) (body : List ENode)
  | identE (name : String) (lc : Option ELocV)
  | literalE (value : LitVal) (lc : Option ELocV)
  | objectE (props : List EProp) (lc : Option ELocV)
  | functionE (fnType : String) (generator : Bool) (id : Option ENode)
      (params : List ENode) (body : List ENode)
  | ifStmt (test : ENode) (consequent : List ENode) (alternate : Option ENode)
  | forStmt (init test update : Option ENode) (body : List ENode)
  | exprStmt (e : ENode)
  | varDecl (kind : String) (decls : List (ENode × ENode))
  | binE (op : String) (l r : ENode)
  | assignE (op : String) (l r : ENode)
  | assignPat (l r : ENode)
  | updateE (op : String) (pfx : Bool) (arg : ENode)
  | callE (callee : ENode) (args : List ENode)
  | memberE (obj : ENode) (computed : Bool) (prop : ENode)
  | yieldE (arg : Option ENode) (delegate : Bool)
  | returnStmt (arg : Option ENode)
  | breakStmt
  | continueStmt
  | thisE
  | exportDefaultD (decl : Option ENode)
/-- An `ObjectExpression` property (`kind` is always `'init'`). -/
inductive EProp where
  | mk (key : ENode) (value : ENode) (method : Bool)
end

deriving instance Repr for ENode
deriving instance Repr for EProp

/-- Is the node an `Identifier`? -/
def isIdentE : ENode → Bool
  | .identE _ _ => true
  | _ => false

/-- Is the node a `FunctionExpression` (used for the `method` flag of
object properties — arrows do not count)? -/
def isFnExprE : ENode → Bool
  | .functionE t _ _ _ _ => t = "FunctionExpression"
  | _ => false

/-- `isExpression`, on the representable node kinds. -/
def isExpressionE : ENode → Bool
  | .thisE => true
  | .objectE _ _ => true
  | .functionE t _ _ _ _ => t = "FunctionExpression" || t = "ArrowFunctionExpression"
  | .updateE _ _ _ => true
  | .binE _ _ _ => true
  | .assignE _ _ _ => true
  | .memberE _ _ _ => true
  | .callE _ _ => true
  | .identE _ _ => true
  | .literalE _ _ => true
  | .yieldE _ _ => true
  | _ => false

/-- `isStatement`, on the representable node kinds. -/
def isStatementE : ENode → Bool
  | .exprStmt _ => true
  | .returnStmt _ => true
  | .breakStmt => true
  | .continueStmt => true
  | .ifStmt _ _ _ => true
  | .forStmt _ _ _ _ => true
  | .varDecl _ _ => true
  | _ => false

/-- `isPattern`, on the representable node kinds. -/
def isPatternE : ENode → Bool
  | .identE _ _ => true
  | .assignPat _ _ => true
  | _ => false

/-- Element-wise effectful map with fail-fast error propagation: the
embedding of the `.map(...)` / per-element loops of the builders and the
lowerer. -/
def exMapM (f : α → Except JErr β) : List α → Except JErr (List β)
  | [] => .ok []
  | a :: as_ => do
    let b ← f a
    let bs ← exMapM f as_
    .ok (b :: bs)

/-- `est.expression(expr)` on a node argument (call sites never pass raw
strings/numbers): validate or throw. -/
def estExpression (e : ENode) : Except JErr ENode :=
  if isExpressionE e then .ok e
  else .error (.plain "cannot be converted into an expression")

/-- `est.pattern(pat)` on a node argument. -/
def estPattern (e : ENode) : Except JErr ENode :=
  if isPatternE e then .ok e
  else .error (.plain "Cannot convert into a pattern")

/-- `est.statement(node)`: auto-wrap expressions into
`ExpressionStatement`. -/
def estStatement (n : ENode) : Except JErr ENode :=
  if isExpressionE n then .ok (.exprStmt n)
  else if isStatementE n then .ok n
  else .error (.plain "Cannot convert into a statement")

/-- `BlockStatement.add(node)` (also `Function.add`, `ForStatement.add`):
push the statement-wrapped node. -/
def blockAdd (body : List ENode) (n : ENode) : Except JErr (List ENode) := do
  let s ← estStatement n
  .ok (body ++ [s])

/-- `est.let(vars)` on the `[[id, init], ...]` form: each declarator
checks `pattern(id)` and `expression(init)`. -/
def estLet (vars : List (ENode × ENode)) : Except JErr ENode := do
  let decls ← exMapM (fun pr => do
    let p ← estPattern pr.1
    let e ← estExpression pr.2
    pure (p, e)) vars
  .ok (.varDecl "let" decls)

/-- `est.binop(left, op, right)`. -/
def estBinop (l : ENode) (op : String) (r : ENode) : Except JErr ENode := do
  let l' ← estExpression l
  let r' ← estExpression r
  .ok (.binE op l' r')

/-- `est.set(left, op, right)` (note: the source passes `left` through
`expression`, not `pattern`). -/
def estSet (l : ENode) (op : String) (r : ENode) : Except JErr ENode := do
  let l' ← estExpression l
  let r' ← estExpression r
  .ok (.assignE op l' r')

/-- `est.update('++', true, arg)` / `est.pincr`. -/
def estPincr (a : ENode) : Except JErr ENode := do
  let a' ← estExpression a
  .ok (.updateE "++" true a')

/-- `est.call(callee, ...args)`. -/
def estCall (callee : ENode) (args : List ENode) : Except JErr ENode := do
  let c ← estExpression callee
  let as_ ← exMapM estExpression args
  .ok (.callE c as_)

/-- `est.member(object, property)` (single property): `computed` is set
when the property is not an `Identifier`. -/
def estMember (obj : ENode) (prop : ENode) : Except JErr ENode := do
  let p ← estExpression prop
  let o ← estExpression obj
  .ok (.memberE o (!isIdentE p) p)

/-- `est.iterator(within)`:
`call(member(expression(within), member(ident('Symbol'), ident('iterator'))))`. -/
def estIterator (within : ENode) : Except JErr ENode := do
  let w ← estExpression within
  let inner ← estMember (.identE "Symbol" none) (.identE "iterator" none)
  let m ← estMember w inner
  estCall m []

/-- `est.yield(expr, delegate)`. -/
def estYield (arg : Option ENode) (delegate : Bool) : Except JErr ENode :=
  match arg with
  | none => .ok (.yieldE none delegate)
  | some a => do
    let a' ← estExpression a
    .ok (.yieldE (some a') delegate)

/-- `est.Object.assign(...exprs)`:
`call(member(ident('Object'), ident('assign')), ...exprs)`. -/
def estObjectAssign (args : List ENode) : Except JErr ENode := do
  let m ← estMember (.identE "Object" none) (.identE "assign" none)
  estCall m args

/-- `est.object(props)` on the `[[key, value], ...]` array form: each
property validates the value as an expression and sets `method` when the
value is a `FunctionExpression`; the key is used as given. -/
def estObjectArr (pairs : List (ENode × ENode)) (lc : Option ELocV) :
    Except JErr ENode := do
  let props ← exMapM (fun pr => do
    let v ← estExpression pr.2
    pure (EProp.mk pr.1 v (isFnExprE pr.2))) pairs
  .ok (.objectE props lc)

/-- `est.object(props)` on the `{key: value}` entries form: string keys
become identifiers. -/
def estObjectEntries (pairs : List (String × ENode)) (lc : Option ELocV) :
    Except JErr ENode := do
  let props ← exMapM (fun pr => do
    let v ← estExpression pr.2
    pure (EProp.mk (.identE pr.1 none) v (isFnExprE pr.2))) pairs
  .ok (.objectE props lc)

/-! ## Lowerer (`src/lib/codegen.js`) -/

/-- The variadic generator `zip` of `codegen.js`, at the two-list instances
the lowerer uses: yield pairs until either input is exhausted.  (The JS
generator reuses one `item` array per iteration, but `Array.from`'s mapping
function consumes each pair before the next iteration overwrites it, so
the produced pairs are exactly these.) -/
def zip2 : List α → List β → List (α × β)
  | a :: as_, b :: bs => (a, b) :: zip2 as_ bs
  | _, _ => []

/-- The `Codegen` instance state: the `__j_ctx_<N>` counter (`_inx`), the
stack of context frames (top-first, each holding its context identifier),
and the name-keyed `blocks`/`macros` tables set up by the `Template`
handler. -/
structure CG where
  inx : Nat := 0
  stack : List ENode := []
  blocks : List (String × TNode) := []
  macros : List (String × TNode) := []
deriving Repr

/-- `Codegen.context`: the top frame's context identifier (or
`undefined`). -/
def CG.context (cg : CG) : Option ENode := cg.stack.head?

/-- `Codegen.push()`: allocate `__j_ctx_<_inx>` (with the constant
`est.loc(1, 0, 1, 0)`) and bump the counter. -/
def CG.push (cg : CG) : CG :=
  { cg with
    stack := .identE ("__j_ctx_" ++ toString cg.inx) (some (estLoc4 1 0 1 0)) :: cg.stack
    inx := cg.inx + 1 }

/-- `Codegen.pop()`. -/
def CG.pop (cg : CG) : CG := { cg with stack := cg.stack.tail }

/-- The `ident` helper of `codegen.js`: an AST `Identifier` token becomes
`est.ident(node.value, est.loc(node.start, node.end))`. -/
def cgIdent (t : IdTok) : ENode := .identE t.value (estLoc2 (some t.start) (some t.stop))

/-- The `lit` helper: `est.literal(value, est.loc(loc.start, loc.end))`. -/
def cgLit (v : LitVal) (s e : Option Loc) : ENode := .literalE v (estLoc2 s e)

/-- The `OP_MAP` lowering of operators: `==` to `===` and `!=` to `!==`,
all others verbatim. -/
def opMap (v : String) : String :=
  if v = "==" then "===" else if v = "!=" then "!==" else v

/-- Lower an expression (`BinOp`, `Variable`, `Member`, `String` have
handlers; the remaining kinds have none and raise
`Unknown node type: <type>`, except the expression-position `Filter`,
which dispatches into the block-`Filter` handler and crashes converting
the absent `body`).  The `mem` flag is the `{member: true}` flag passed to
properties of `Member` nodes: a variable in member position stays a bare
identifier, otherwise it lowers to a property lookup on the current
context (a missing context crashes in `est.member`). -/
def cgExpr (cg : CG) : Bool → Expr → Except JErr ENode
  | _, .binOp op l r _ _ => do
    let l' ← cgExpr cg false l
    let r' ← cgExpr cg false r
    estBinop l' (opMap op.value) r'
  | mem, .variable n s e =>
    let id := .identE n (estLoc2 s e)
    if mem then .ok id
    else
      match cg.context with
      | some ctx => estMember ctx id
      | none => .error (.plain "TypeError")
  | _, .member o p _ _ => do
    let o' ← cgExpr cg false o
    let p' ← cgExpr cg true p
    estMember o' p'
  | _, .stringE s e => .ok (cgLit .undef s e)
  | _, .numberE _ _ _ => .error (.plain "Unknown node type: Number")
  | _, .boolean _ _ _ => .error (.plain "Unknown node type: Boolean")
  | _, .functionCall _ _ _ _ => .error (.plain "Unknown node type: FunctionCall")
  | _, .unpack _ _ _ => .error (.plain "Unknown node type: Unpack")
  | _, .argListGuard => .error (.plain "Unknown node type: ArgListGuard")
  | _, .filterE _ _ _ _ => .error (.plain "TypeError")

/-- `this.convert(x)` where `x` may be `undefined` (reading `.type` of
`undefined` crashes). -/
def cgExprO (cg : CG) : Option Expr → Except JErr ENode
  | some e => cgExpr cg false e
  | none => .error (.plain "TypeError")

/-- The `block` argument of a converter: `none` models the JS `null`
default; using it as a block crashes. -/
def needBlock : Option (List ENode) → Except JErr (List ENode)
  | some b => .ok b
  | none => .error (.plain "TypeError")

/-- The `.name` token of an AST node (`undefined` on nodes without one,
which crashes the name-keyed table builders / `ident`). -/
def nameTokOf : TNode → Option IdTok
  | .macroDef name _ _ _ _ => some name
  | .block name _ _ _ => some name
  | .callBlock name _ _ => some name
  | _ => none

/-- The `.args` list of a macro definition node. -/
def margsOf : TNode → Option (List TArg)
  | .macroDef _ args _ _ _ => some args
  | _ => none

/-- The `.body` of an AST node, when it is itself a node. -/
def nodeBodyOf : TNode → Option TNode
  | .macroDef _ _ body _ _ => some body
  | .macroCall _ _ body _ _ => some body
  | .filterBlock _ body _ _ => some body
  | .forLoop _ _ _ body _ _ _ => some body
  | .block _ body _ _ => some body
  | .template _ _ _ body _ _ => some body
  | _ => none

/-- The mapping function of `Codegen.MacroCall`'s argument object:
a zipped `(call argument, declared parameter)` pair becomes the property
pair `[ident(spec.name), this.convert(arg)]`. -/
def macroCallProp (cg : CG) (pr : Option Expr × TArg) : Except JErr (ENode × ENode) := do
  let v ← cgExprO cg pr.1
  pure (cgIdent pr.2.name, v)

/-- A lowering request: a single node (`this.convert(node, block)`), a
child list converted into a block, the arm chain of a `CaseStatement`, or
the `[ident(macro.name), convert(macro)]` property pairs of the
`macros` object. -/
inductive CgReq where
  | node (n : TNode)
  | nodes (ns : List TNode)
  | armChain (arms : List Arm)
  | macroPairs (ms : List TNode)

/-- A lowering result: nothing, a converter's return value, a case-chain
alternate, or the macros-object property pairs. -/
inductive CgRes where
  | unit
  | ret (e : Option ENode)
  | alt (e : Option ENode)
  | pairs (ps : List (ENode × ENode))
deriving Repr

/-- Build the name-keyed `this.blocks` / `this.macros` table from a node
list (`table[node.name.value] = node`, inserting front to back, so later
definitions overwrite earlier ones in place; a node without a name
crashes). -/
def buildTblFold (ns : List TNode) : Except JErr (List (String × TNode)) :=
  ns.foldlM (fun tbl n =>
    match nameTokOf n with
    | none => .error (.plain "TypeError")
    | some t => .ok (upsert t.value n tbl)) []

/-- The lowering pass: one fueled dispatcher covering `Codegen.convert`
and the child/arm/macro loops of its handlers.  `blockO` is the `block`
argument (`none` = JS `null`); the result triple is (updated instance
state, updated block, request-specific result). -/
def cgRun (fuel : Nat) (cg : CG) (req : CgReq) (blockO : Option (List ENode)) :
    Except JErr (CG × Option (List ENode) × CgRes) :=
  match fuel with
  | 0 => .error (.plain "out of fuel")
  | fuel + 1 =>
    match req with
    | .nodes [] => .ok (cg, blockO, .unit)
    | .nodes (n :: rest) => do
      let (cg₁, blockO₁, _) ← cgRun fuel cg (.node n) blockO
      cgRun fuel cg₁ (.nodes rest) blockO₁
    | .armChain [] => .ok (cg, blockO, .alt none)
    | .armChain (.mk cond abody _ _ :: rest) => do
      let test ← cgExprO cg cond
      let (cg₁, thenBO, _) ← cgRun fuel cg (.nodes abody) (some [])
      let thenB ← needBlock thenBO
      let (cg₂, _, r) ← cgRun fuel cg₁ (.armChain rest) none
      match r with
      | .alt alt => .ok (cg₂, blockO, .alt (some (.ifStmt test thenB alt)))
      | _ => .error (.plain "bad result")
    | .macroPairs [] => .ok (cg, blockO, .pairs [])
    | .macroPairs (m :: rest) => do
      let key ←
        match nameTokOf m with
        | some t => (pure (cgIdent t) : Except JErr ENode)
        | none => .error (.plain "TypeError")
      let (cg₁, _, r₁) ← cgRun fuel cg (.node m) none
      let v ←
        match r₁ with
        | .ret (some v) => (pure v : Except JErr ENode)
        | _ => .error (.plain "TypeError")
      let (cg₂, _, r₂) ← cgRun fuel cg₁ (.macroPairs rest) none
      match r₂ with
      | .pairs ps => .ok (cg₂, blockO, .pairs ((key, v) :: ps))
      | _ => .error (.plain "bad result")
    | .node n =>
      match n with
      | .text txt s e => do
        let b ← needBlock blockO
        let y ← estYield (some (cgLit (.str txt) (some s) (some e))) false
        let b' ← blockAdd b y
        .ok (cg, some b', .ret none)
      | .putValue v filters _ _ => do
        let b ← needBlock blockO
        let v₀ ← cgExprO cg v
        let fs ← exMapM (cgExprO cg) filters
        let val ← fs.foldlM (fun acc f => estCall f [acc]) v₀
        let y ← estYield (some val) false
        let b' ← blockAdd b y
        .ok (cg, some b', .ret none)
      | .caseStatement arms _ _ => do
        let b ← needBlock blockO
        let (cg₁, _, r) ← cgRun fuel cg (.armChain arms) none
        match r with
        | .alt (some chain) => .ok (cg₁, some (b ++ [chain]), .ret none)
        | .alt none => .ok (cg₁, some b, .ret none)
        | _ => .error (.plain "bad result")
      | .forLoop pat iter filt body altOpt _ _ => do
        let b ← needBlock blockO
        let inx := cg.inx
        let cg := { cg with inx := inx + 1 }
        let loopId : ENode := .identE ("__j_loop_" ++ toString inx) none
        let iterC ← cgExprO cg iter
        let iterE ← estIterator iterC
        let countId : ENode := .identE ("__j_count_" ++ toString inx) none
        let letDecl ← estLet [(loopId, iterE), (countId, .literalE (.num 0) none)]
        let b₁ ← blockAdd b letDecl
        let upd ← estPincr countId
        let itemId : ENode := .identE ("__j_item_" ++ toString inx) none
        let nextM ← estMember loopId (.identE "next" none)
        let nextC ← estCall nextM []
        let itemLet ← estLet [(itemId, nextC)]
        let fb₀ ← blockAdd [] itemLet
        let doneM ← estMember itemId (.identE "done" none)
        let doneT ← estExpression doneM
        let fb₁ := fb₀ ++ [.ifStmt doneT [.breakStmt] none]
        let pctx := cg.context
        let cg₂ := cg.push
        let ctxId ←
          match cg₂.context with
          | some c => (pure c : Except JErr ENode)
          | none => .error (.plain "TypeError")
        let assignC ←
          match pctx with
          | some pc => estObjectAssign [.objectE [] none, pc]
          | none => estObjectAssign [.objectE [] none]
        let ctxLet ← estLet [(ctxId, assignC)]
        let fb₂ := fb₁ ++ [ctxLet]
        let patE ← cgExpr cg₂ false pat
        let valM ← estMember itemId (.identE "value" none)
        let setE ← estSet patE "=" valM
        let fb₃ ← blockAdd fb₂ setE
        let fb₄ ←
          match filt with
          | some f => do
            let fE ← cgExpr cg₂ false f
            let tE ← estExpression fE
            (pure (fb₃ ++ [.ifStmt tE [.continueStmt] none]) :
              Except JErr (List ENode))
          | none => pure fb₃
        let (cg₃, fbO, _) ← cgRun fuel cg₂ (.node body) (some fb₄)
        let fb₅ ← needBlock fbO
        let cg₄ := cg₃.pop
        let b₂ := b₁ ++ [.forStmt none none (some upd) fb₅]
        match altOpt with
        | some altList => do
          let cmp ← estBinop countId "===" (.literalE (.num 0) none)
          let tE ← estExpression cmp
          let (cg₅, ebO, _) ← cgRun fuel cg₄ (.nodes altList) (some [])
          let eb ← needBlock ebO
          .ok (cg₅, some (b₂ ++ [.ifStmt tE eb none]), .ret none)
        | none => .ok (cg₄, some b₂, .ret none)
      | .callBlock name _ _ => do
        let b ← needBlock blockO
        let spec ←
          match (cg.blocks.find? (fun pr => pr.1 = name.value)).map Prod.snd with
          | some sn => (pure sn : Except JErr TNode)
          | none => .error (.plain "TypeError")
        let specBody ←
          match nodeBodyOf spec with
          | some sb => (pure sb : Except JErr TNode)
          | none => .error (.plain "TypeError")
        let cg₁ := cg.push
        let (cg₂, cbO, _) ← cgRun fuel cg₁ (.node specBody) (some [])
        let cb ← needBlock cbO
        let cg₃ := cg₂.pop
        let codeFn : ENode := .functionE "FunctionExpression" true none [] cb
        let cE ← estCall codeFn []
        let y ← estYield (some cE) true
        let b' ← blockAdd b y
        .ok (cg₃, some b', .ret none)
      | .macroCall mname args _ _ _ => do
        let b ← needBlock blockO
        let spec ←
          match (cg.macros.find? (fun pr => pr.1 = mname.value)).map Prod.snd with
          | some sn => (pure sn : Except JErr TNode)
          | none => .error (.plain "TypeError")
        let params ←
          match margsOf spec with
          | some ps => (pure ps : Except JErr (List TArg))
          | none => .error (.plain "TypeError")
        let code ← estMember (.identE "__j_macros" none) (cgIdent mname)
        let prs ← exMapM (macroCallProp cg) (zip2 args params)
        let argsObj ← estObjectArr prs none
        let cE ← estCall code [argsObj, .identE "__j_macros" none]
        let y ← estYield (some cE) true
        let b' ← blockAdd b y
        .ok (cg, some b', .ret none)
      | .assign pat v _ _ => do
        let b ← needBlock blockO
        let patE ← cgExpr cg false pat
        let vE ← cgExprO cg v
        let setE ← estSet patE "=" vE
        let b' ← blockAdd b setE
        .ok (cg, some b', .ret none)
      | .filterBlock f body _ _ => do
        let b ← needBlock blockO
        let code : ENode := .functionE "ArrowFunctionExpression" true none [] []
        let cg₁ := cg.push
        let (cg₂, bO₁, _) ← cgRun fuel cg₁ (.node body) (some b)
        let b₁ ← needBlock bO₁
        let cg₃ := cg₂.pop
        let fE ← cgExprO cg₃ f
        let innerC ← estCall code []
        let val ← estCall fE [innerC]
        let y ← estYield (some val) true
        let b₂ ← blockAdd b₁ y
        .ok (cg₃, some b₂, .ret none)
      | .scope vs body _ _ =>
        match vs with
        | [] => do
          let (cg₁, blockO₁, _) ← cgRun fuel cg (.nodes body) blockO
          .ok (cg₁, blockO₁, .ret none)
        | _ :: _ => do
          let b ← needBlock blockO
          let pctx := cg.context
          let prs ← exMapM (fun nm => do
            let init ←
              match pctx with
              | some pc => estMember pc (.identE nm none)
              | none => (pure (.literalE .nullL none) : Except JErr ENode)
            pure ((.identE nm none : ENode), init)) vs
          let ctxObj ← estObjectArr prs none
          let cg₁ := cg.push
          let ctxId ←
            match cg₁.context with
            | some c => (pure c : Except JErr ENode)
            | none => .error (.plain "TypeError")
          let init ←
            match pctx with
            | some pc => estObjectAssign [ctxObj, pc]
            | none => (pure ctxObj : Except JErr ENode)
          let decl ← estLet [(ctxId, init)]
          let b₁ ← blockAdd b decl
          let (cg₂, bO₂, _) ← cgRun fuel cg₁ (.nodes body) (some b₁)
          let cg₃ := cg₂.pop
          .ok (cg₃, bO₂, .ret none)
      | .block _ _ _ _ =>
        -- the lowerer has no `Block` handler; blocks are reached only
        -- through `CallBlock` and the `this.blocks` table
        .error (.plain "Unknown node type: Block")
      | .macroDef name _ body _ _ => do
        let cg₁ := cg.push
        let ctxId ←
          match cg₁.context with
          | some c => (pure c : Except JErr ENode)
          | none => .error (.plain "TypeError")
        let (cg₂, mbO, _) ← cgRun fuel cg₁ (.node body) (some [])
        let mb ← needBlock mbO
        let cg₃ := cg₂.pop
        let fn : ENode := .functionE "FunctionExpression" true (some (cgIdent name))
          [ctxId, .identE "__j_macros" none] mb
        .ok (cg₃, blockO, .ret (some fn))
      | .template _ blocks macros body s e => do
        let btbl ← buildTblFold blocks
        let mtbl ← buildTblFold macros
        let cg₀ := { cg with blocks := btbl, macros := mtbl }
        let cg₁ := cg₀.push
        let ctxId ←
          match cg₁.context with
          | some c => (pure c : Except JErr ENode)
          | none => .error (.plain "TypeError")
        let macrosM ← estMember .thisE (.identE "macros" none)
        let decl ← estLet [(.identE "__j_macros" none, macrosM)]
        let gb₀ ← blockAdd [] decl
        let (cg₂, gbO, _) ← cgRun fuel cg₁ (.node body) (some gb₀)
        let gb ← needBlock gbO
        let cg₃ := cg₂.pop
        let generate : ENode :=
          .functionE "FunctionExpression" true (some (.identE "generate" none)) [ctxId] gb
        let genM ← estMember .thisE (.identE "generate" none)
        let genC ← estCall genM [.identE "context" none]
        let fromM ← estMember (.identE "Array" none) (.identE "from" none)
        let fromC ← estCall fromM [genC]
        let joinM ← estMember fromC (.identE "join" none)
        let joinC ← estCall joinM [.literalE (.str "") none]
        let rArg ← estExpression joinC
        let render : ENode :=
          .functionE "FunctionExpression" false (some (.identE "render" none))
            [.identE "context" none] [.returnStmt (some rArg)]
        let (cg₄, _, pr) ← cgRun fuel cg₃ (.macroPairs macros) none
        match pr with
        | .pairs mpairs => do
          let mobj ← estObjectArr mpairs none
          let outer ← estObjectEntries
            [("macros", mobj), ("generate", generate), ("render", render)]
            (estLoc2 (some s) (some e))
          .ok (cg₄, blockO, .ret (some outer))
        | _ => .error (.plain "bad result")

/-- `translate(node)`: run a fresh `Codegen` on the node (with a `null`
block); the result is the handler's return value (possibly `undefined`). -/
def translateT (fuel : Nat) (t : TNode) : Except JErr (Option ENode) := do
  let (_, _, r) ← cgRun fuel {} (.node t) none
  match r with
  | .ret e => .ok e
  | _ => .error (.plain "bad result")

/-- `compile(source, name)` from `src/lib/index.js` (the `name` argument
is accepted and ignored by the `Source` constructor): parse, lower, and
wrap the result in a module `Program` whose single entry is an
`ExportDefaultDeclaration` (module declarations are pushed unwrapped by
`Program.add`). -/
def compileJ (fuel : Nat) (code : List Char) : Except JErr ENode := do
  let t ← parseTemplate fuel code
  let astO ← translateT fuel t
  .ok (.program "module" [.exportDefaultD astO])

/-! ## Claims about the lowerer (C1, C2, C3, C10) -/

/-- The body of the `generate` generator in a compiled module (the second
property of the default-exported object). -/
def generateBodyOf (r : Except JErr ENode) : Option (List ENode) :=
  match r with
  | .ok (.program _ [.exportDefaultD (some (.objectE
      [_, .mk _ (.functionE _ _ _ _ gb) _, _] _))]) => some gb
  | _ => none

/-- The body of the single `for` statement inside a generate body of the
shape `[let __j_macros ..., let __j_loop ..., for ...]`. -/
def forBodyIn : Option (List ENode) → Option (List ENode)
  | some [_, _, .forStmt _ _ _ fb] => some fb
  | _ => none

/-- The concrete for-loop-with-filter template used to evaluate C1. -/
def c1src : List Char := "\x7b% for x in xs if c %\x7dt\x7b% endfor %\x7d".data

/-- C1, evaluation of the code at the failing input.  For the `ForLoop`
with filter `c`, the generated loop body has six statements; the fourth is
the pattern assignment and the fifth is `if (<lowered filter>) continue;`
— the test is the lowered filter expression itself (`__j_ctx_2.c`),
*without* the negation the claim (and the spec) require.  The builder
library has no unary-negation constructor at all, so no `!` can appear:
the iteration is skipped exactly when the filter is *truthy*, not when it
is falsy. -/
theorem c1_filter_not_negated :
    (forBodyIn (generateBodyOf (compileJ 1000 c1src))).map
        (fun fb => (fb.length, fb.get? 3, fb.get? 4)) =
      some (6,
        some (.exprStmt (.assignE "="
          (.memberE (.identE "__j_ctx_2" (some (estLoc4 1 0 1 0))) false
            (.identE "x" (estLoc2 (some ⟨7, 1, 7⟩) (some ⟨8, 1, 8⟩))))
          (.memberE (.identE "__j_item_1" none) false (.identE "value" none)))),
        some (.ifStmt
          (.memberE (.identE "__j_ctx_2" (some (estLoc4 1 0 1 0))) false
            (.identE "c" (estLoc2 (some ⟨18, 1, 18⟩) (some ⟨19, 1, 19⟩))))
          [.continueStmt] none)) := by
  rfl

/-- The concrete filter-block template used to evaluate C2. -/
def c2src : List Char := "\x7b% filter f %\x7dt\x7b% endfilter %\x7d".data

/-- C2, evaluation of the code at the failing input.  Lowering
`{% filter f %}t{% endfilter %}` yields a generate body of three
statements: the `__j_macros` binding, then `yield 't'` — the block's body,
lowered *directly into the enclosing block* — and then
`yield* <filter>((() => {})())` whose generator arrow function has an
*empty* body.  The claim (and the spec) place the lowered body inside the
arrow, which the code does not do (the handler passes the enclosing
`block`, not the arrow, to the body conversion — compare `CallBlock`,
which passes the generator). -/
theorem c2_filter_body_outside_arrow :
    (generateBodyOf (compileJ 1000 c2src)).map
        (fun gb => (gb.length, gb.get? 1, gb.get? 2)) =
      some (3,
        some (.exprStmt (.yieldE
          (some (.literalE (.str "t") (estLoc2 (some ⟨14, 1, 14⟩) (some ⟨15, 1, 15⟩))))
          false)),
        some (.exprStmt (.yieldE
          (some (.callE
            (.memberE (.identE "__j_ctx_0" (some (estLoc4 1 0 1 0))) false
              (.identE "f" (estLoc2 (some ⟨10, 1, 10⟩) (some ⟨11, 1, 11⟩))))
            [.callE (.functionE "ArrowFunctionExpression" true none [] []) []]))
          true))) := by
  rfl

theorem zip2_length (as_ : List α) (bs : List β) :
    (zip2 as_ bs).length = min as_.length bs.length := by
  induction as_ generalizing bs with
  | nil => cases bs <;> simp [zip2]
  | cons a as_ ih =>
    cases bs with
    | nil => simp [zip2]
    | cons b bs =>
      simp [zip2, ih]
      omega

theorem zip2_get (as_ : List α) (bs : List β) (i : Nat)
    (h : i < (zip2 as_ bs).length) (ha : i < as_.length) (hb : i < bs.length) :
    (zip2 as_ bs).get ⟨i, h⟩ = (as_.get ⟨i, ha⟩, bs.get ⟨i, hb⟩) := by
  induction as_ generalizing bs i with
  | nil => exact absurd ha (by simp)
  | cons a as_ ih =>
    cases bs with
    | nil => exact absurd hb (by simp)
    | cons b bs =>
      cases i with
      | zero => rfl
      | succ i =>
        simp only [zip2, List.get]
        exact ih bs i _ _ _

theorem exMapM_ok_length (f : α → Except JErr β) (xs : List α) (ys : List β)
    (h : exMapM f xs = .ok ys) : ys.length = xs.length := by
  induction xs generalizing ys with
  | nil =>
    simp only [exMapM] at h
    cases h
    rfl
  | cons x xs ih =>
    simp only [exMapM, bind, Except.bind] at h
    cases hf : f x with
    | error e => rw [hf] at h; exact Except.noConfusion h
    | ok b =>
      rw [hf] at h
      cases hr : exMapM f xs with
      | error e => rw [hr] at h; exact Except.noConfusion h
      | ok bs =>
        rw [hr] at h
        cases h
        simp [ih bs hr]

theorem exMapM_ok_get (f : α → Except JErr β) (xs : List α) (ys : List β)
    (h : exMapM f xs = .ok ys) (i : Nat) (hx : i < xs.length) (hy : i < ys.length) :
    f (xs.get ⟨i, hx⟩) = .ok (ys.get ⟨i, hy⟩) := by
  induction xs generalizing ys i with
  | nil => exact absurd hx (by simp)
  | cons x xs ih =>
    simp only [exMapM, bind, Except.bind] at h
    cases hf : f x with
    | error e => rw [hf] at h; exact Except.noConfusion h
    | ok b =>
      rw [hf] at h
      cases hr : exMapM f xs with
      | error e => rw [hr] at h; exact Except.noConfusion h
      | ok bs =>
        rw [hr] at h
        cases h
        cases i with
        | zero => exact hf
        | succ i => exact ih bs hr i _ _

theorem estExpression_ok (x v : ENode) (h : estExpression x = .ok v) : v = x := by
  unfold estExpression at h
  split at h
  · cases h; rfl
  · exact Except.noConfusion h

theorem estObjectArr_ok (pairs : List (ENode × ENode)) (lc : Option ELocV) (v : ENode)
    (h : estObjectArr pairs lc = .ok v) :
    ∃ props, v = .objectE props lc ∧
      exMapM (fun pr => do
        let v ← estExpression pr.2
        pure (EProp.mk pr.1 v (isFnExprE pr.2))) pairs = .ok props := by
  unfold estObjectArr at h
  simp only [bind, Except.bind] at h
  split at h
  · exact Except.noConfusion h
  · next props heq =>
    cases h
    exact ⟨props, rfl, heq⟩

/-- C10: lowering a `MacroCall` whose referenced macro declares `m`
parameters and whose call site supplies `n` argument expressions emits a
single `yield* __j_macros.<name>(<object>, __j_macros)` into the block,
where the object literal has exactly `min(n, m)` properties, binding the
`i`-th declared parameter name to the `i`-th lowered call argument for
every `i < min(n, m)`; surplus arguments or surplus parameters are
silently dropped (the zip stops at the shorter list) without error. -/
theorem c10_macroCall_zip (fuel : Nat) (cg : CG) (mname : IdTok)
    (args : List (Option Expr)) (body : TNode) (s e : Loc) (b : List ENode)
    (spec : TNode) (params : List TArg)
    (cg' : CG) (bO' : Option (List ENode)) (r : CgRes)
    (hfind : (cg.macros.find? (fun pr => pr.1 = mname.value)).map Prod.snd = some spec)
    (hargs : margsOf spec = some params)
    (hok : cgRun (fuel + 1) cg (.node (.macroCall mname args body s e)) (some b) =
      .ok (cg', bO', r)) :
    ∃ prs props,
      exMapM (macroCallProp cg) (zip2 args params) = .ok prs ∧
      estObjectArr prs none = .ok (.objectE props none) ∧
      bO' = some (b ++ [.exprStmt (.yieldE (some (.callE
        (.memberE (.identE "__j_macros" none) false (cgIdent mname))
        [.objectE props none, .identE "__j_macros" none])) true)]) ∧
      props.length = min args.length params.length ∧
      (∀ i (ha : i < args.length) (hp : i < params.length) (hq : i < props.length),
        ∃ v, cgExprO cg (args.get ⟨i, ha⟩) = .ok v ∧
          props.get ⟨i, hq⟩ =
            .mk (cgIdent (params.get ⟨i, hp⟩).name) v (isFnExprE v)) := by
  unfold cgRun at hok
  simp [hfind, hargs, needBlock, estMember, estExpression, estCall, estYield,
    blockAdd, estStatement, isExpressionE, isIdentE, isStatementE, isFnExprE,
    cgIdent, bind, Except.bind, pure, Except.pure] at hok
  split at hok
  · exact Except.noConfusion hok
  · next prs hprs =>
    split at hok
    · exact Except.noConfusion hok
    · next argsObj hobj =>
      obtain ⟨props, hsh, hmprops⟩ := estObjectArr_ok _ _ _ hobj
      subst hsh
      simp [exMapM, estExpression, isExpressionE, bind, Except.bind, pure,
        Except.pure] at hok
      obtain ⟨hcg, hbO, hr⟩ := hok
      have hlen1 : prs.length = (zip2 args params).length :=
        exMapM_ok_length _ _ _ hprs
      have hlen2 : props.length = prs.length :=
        exMapM_ok_length _ _ _ hmprops
      refine ⟨prs, props, hprs, hobj, hbO.symm, ?_, ?_⟩
      · rw [hlen2, hlen1, zip2_length]
      · intro i ha hp hq
        have hiz : i < (zip2 args params).length := by
          rw [zip2_length]
          omega
        have hip : i < prs.length := by omega
        have h1 := exMapM_ok_get _ _ _ hprs i hiz hip
        rw [zip2_get args params i hiz ha hp] at h1
        unfold macroCallProp at h1
        simp only [bind, Except.bind, pure, Except.pure] at h1
        cases hv : cgExprO cg (args.get ⟨i, ha⟩) with
        | error er => rw [hv] at h1; exact Except.noConfusion h1
        | ok v =>
          rw [hv] at h1
          rw [Except.ok.injEq] at h1
          have h2 := exMapM_ok_get _ _ _ hmprops i hip hq
          rw [← h1] at h2
          simp only [bind, Except.bind, pure, Except.pure] at h2
          cases hev : estExpression v with
          | error er => rw [hev] at h2; exact Except.noConfusion h2
          | ok v' =>
            rw [hev] at h2
            rw [Except.ok.injEq] at h2
            have hvv : v' = v := estExpression_ok v v' hev
            refine ⟨v, rfl, ?_⟩
            rw [← h2, hvv]

/-- Concrete macro definition used by the C10 witness: `m(a, b)` with an
empty body. -/
def c10wSpec : TNode :=
  .macroDef ⟨"m", ⟨9, 1, 9⟩, ⟨10, 1, 10⟩⟩
    [⟨⟨"a", ⟨11, 1, 11⟩, ⟨12, 1, 12⟩⟩, none, ⟨11, 1, 11⟩, ⟨12, 1, 12⟩⟩,
     ⟨⟨"b", ⟨14, 1, 14⟩, ⟨15, 1, 15⟩⟩, none, ⟨14, 1, 14⟩, ⟨15, 1, 15⟩⟩]
    (.scope [] [] ⟨20, 1, 20⟩ ⟨20, 1, 20⟩) ⟨0, 1, 0⟩ ⟨30, 1, 30⟩

/-- The declared parameters of `c10wSpec`. -/
def c10wParams : List TArg :=
  [⟨⟨"a", ⟨11, 1, 11⟩, ⟨12, 1, 12⟩⟩, none, ⟨11, 1, 11⟩, ⟨12, 1, 12⟩⟩,
   ⟨⟨"b", ⟨14, 1, 14⟩, ⟨15, 1, 15⟩⟩, none, ⟨14, 1, 14⟩, ⟨15, 1, 15⟩⟩]

/-- Codegen state for the C10 witness: one open context frame and the
macro table holding `m`. -/
def c10wCg : CG :=
  { inx := 1, stack := [.identE "__j_ctx_0" (some (estLoc4 1 0 1 0))],
    macros := [("m", c10wSpec)] }

/-- Three call arguments for the two-parameter macro (the third is
dropped by the zip). -/
def c10wArgs : List (Option Expr) :=
  [some (.variable "p" (some ⟨44, 1, 44⟩) (some ⟨45, 1, 45⟩)),
   some (.variable "q" (some ⟨47, 1, 47⟩) (some ⟨48, 1, 48⟩)),
   some (.variable "r" (some ⟨50, 1, 50⟩) (some ⟨51, 1, 51⟩))]

/-- The call site's name token. -/
def c10wName : IdTok := ⟨"m", ⟨42, 1, 42⟩, ⟨43, 1, 43⟩⟩

/-- The call body scope (unused by the lowerer). -/
def c10wBody : TNode := .scope [] [] ⟨55, 1, 55⟩ ⟨55, 1, 55⟩

/-- The successful lowering outcome of the witness `MacroCall`. -/
def c10wOut : CG × Option (List ENode) × CgRes :=
  match cgRun 5 c10wCg
      (.node (.macroCall c10wName c10wArgs c10wBody ⟨40, 1, 40⟩ ⟨60, 1, 60⟩)) (some []) with
  | .ok t => t
  | .error _ => ({}, none, .unit)

/-- Witness for C10 at a concrete three-argument call of a two-parameter
macro. -/
theorem c10_macroCall_zip_witness :
    ∃ prs props,
      exMapM (macroCallProp c10wCg) (zip2 c10wArgs c10wParams) = .ok prs ∧
      estObjectArr prs none = .ok (.objectE props none) ∧
      c10wOut.2.1 = some ([] ++ [.exprStmt (.yieldE (some (.callE
        (.memberE (.identE "__j_macros" none) false (cgIdent c10wName))
        [.objectE props none, .identE "__j_macros" none])) true)]) ∧
      props.length = min c10wArgs.length c10wParams.length ∧
      (∀ i (ha : i < c10wArgs.length) (hp : i < c10wParams.length)
          (hq : i < props.length),
        ∃ v, cgExprO c10wCg (c10wArgs.get ⟨i, ha⟩) = .ok v ∧
          props.get ⟨i, hq⟩ =
            .mk (cgIdent ((c10wParams.get ⟨i, hp⟩)).name) v (isFnExprE v)) :=
  c10_macroCall_zip 4 c10wCg c10wName c10wArgs c10wBody ⟨40, 1, 40⟩ ⟨60, 1, 60⟩ []
    c10wSpec c10wParams c10wOut.1 c10wOut.2.1 c10wOut.2.2 (by rfl) (by rfl) (by rfl)

/-- The names of an object expression's property keys (when they are
identifiers). -/
def propKeys (props : List EProp) : List (Option String) :=
  props.map (fun p => match p with
    | .mk (.identE n _) _ _ => some n
    | _ => none)

theorem throwSyntax_ne_ok (l : ErrLoc) (msg : String) (a : α) :
    throwSyntax l msg ≠ .ok a := by
  unfold throwSyntax
  cases l.start <;> simp

/-- A successful `Parser.generate()` always produces a `Template` node
(with a `null` `extends`). -/
theorem parse_gives_template (fuel : Nat) (code : List Char) (t : TNode)
    (h : parseTemplate fuel code = .ok t) :
    ∃ bs ms body sl el, t = .template none bs ms body sl el := by
  unfold parseTemplate at h
  simp only [bind, Except.bind] at h
  split at h
  · exact Except.noConfusion h
  · next st hst =>
    unfold pGenerate at h
    split at h
    · exact Except.noConfusion h
    · next c rest =>
      split at h
      · exact absurd h (throwSyntax_ne_ok _ _ _)
      · cases h
        exact ⟨_, _, _, _, _, rfl⟩

/-- The `Template` handler, when it succeeds, returns an object
expression whose properties are exactly `macros`, `generate` and
`render`. -/
theorem template_run_shape (fl : Nat) (cg : CG) (ext : Option IdTok)
    (bs ms : List TNode) (body : TNode) (sl el : Loc)
    (cg' : CG) (bO blockO : Option (List ENode)) (r : CgRes)
    (hok : cgRun fl cg (.node (.template ext bs ms body sl el)) blockO =
      .ok (cg', bO, r)) :
    ∃ props lc, r = .ret (some (.objectE props lc)) ∧
      propKeys props = [some "macros", some "generate", some "render"] := by
  cases fl with
  | zero => unfold cgRun at hok; exact Except.noConfusion hok
  | succ fl =>
    unfold cgRun at hok
    simp [CG.push, CG.pop, CG.context, needBlock, estMember, estExpression,
      estCall, estYield, blockAdd, estStatement, estLet, estPattern,
      isExpressionE, isIdentE, isStatementE, isPatternE, isFnExprE, exMapM,
      bind, Except.bind, pure, Except.pure] at hok
    split at hok
    · exact Except.noConfusion hok
    next btbl hbs =>
    split at hok
    · exact Except.noConfusion hok
    next mtbl hms =>
    split at hok
    · exact Except.noConfusion hok
    next v hbody =>
    split at hok
    · exact Except.noConfusion hok
    next gb hgb =>
    split at hok
    · exact Except.noConfusion hok
    next w hpairsRun =>
    split at hok
    next mpairs hpr =>
      split at hok
      · exact Except.noConfusion hok
      next mobj hobj =>
        obtain ⟨props0, hsh, hprops0⟩ := estObjectArr_ok _ _ _ hobj
        subst hsh
        simp [estObjectEntries, exMapM, estExpression, isExpressionE, isFnExprE,
          bind, Except.bind, pure, Except.pure] at hok
        obtain ⟨hcg, hbO, hr⟩ := hok
        exact ⟨_, _, hr.symm, rfl⟩
    next hnot => exact Except.noConfusion hok

/-- C3: for every source string on which compilation succeeds,
`compile(source, name)` returns a `Program` with `sourceType = "module"`
whose body is exactly one `ExportDefaultDeclaration`, and the
default-exported object expression has exactly the three properties
`macros`, `generate` and `render`. -/
theorem c3_compile_shape (fuel : Nat) (code : List Char) (p : ENode)
    (h : compileJ fuel code = .ok p) :
    ∃ props lc,
      p = .program "module" [.exportDefaultD (some (.objectE props lc))] ∧
      propKeys props = [some "macros", some "generate", some "render"] := by
  unfold compileJ at h
  simp only [bind, Except.bind, pure, Except.pure] at h
  split at h
  · exact Except.noConfusion h
  next t hparse =>
  obtain ⟨bs, ms, body, sl, el, rfl⟩ := parse_gives_template _ _ _ hparse
  unfold translateT at h
  simp only [bind, Except.bind, pure, Except.pure] at h
  split at h
  · exact Except.noConfusion h
  next trip htr =>
  split at htr
  · exact Except.noConfusion htr
  next v hrun =>
  obtain ⟨cgf, bOf, rf⟩ := v
  obtain ⟨props, lc, hr, hkeys⟩ :=
    template_run_shape fuel {} none bs ms body sl el cgf bOf none rf hrun
  rw [hr] at htr
  simp only [] at htr
  cases htr
  cases h
  exact ⟨props, lc, rfl, hkeys⟩

/-- The module compiled from the empty template. -/
def c3wOut : ENode :=
  match compileJ 200 "".data with
  | .ok p => p
  | .error _ => .program "" []

/-- Witness for C3 at the empty source string. -/
theorem c3_compile_shape_witness :
    ∃ props lc,
      c3wOut = .program "module" [.exportDefaultD (some (.objectE props lc))] ∧
      propKeys props = [some "macros", some "generate", some "render"] :=
  c3_compile_shape 200 "".data c3wOut (by rfl)

end RollupJinja
